import Mathlib

/-!
Verification development for the `apns` repository (files `aioapns/common.py`
and `aioapns/connection.py`).

The Python source is shallowly embedded below:

* Python values that a notification message may hold are modelled by `PyVal`
  (JSON-compatible constructors plus `notSerializable` for any Python object
  that `json.dumps` rejects with a `TypeError`, such as a set).
* `json.dumps(message, ensure_ascii=False)` is modelled by `dumps` /
  `dumpsOpt` (`none` models the raised `TypeError`);
  `json.loads` applied to a transmitted body is modelled by `loads`.
  Numbers are modelled as Python ints (floats are outside the model);
  object keys are strings, as in notification payloads.
* `jwt.encode` is an external signing collaborator; its output token is
  modelled by the record `JwtToken` carrying exactly the inputs the source
  passes to it (claims `iss`/`iat`, the key, the `kid` header and the
  algorithm).  A real JWT embeds its payload, so two tokens with different
  `iat` claims are distinct, which the record models faithfully.
* Wall-clock time (`time.time()`) is passed explicitly as an integer `now`
  argument; the source stores `int(now)`, which for an integer clock is
  `now` itself.  The single call to `send_notification` reads the clock
  twice (once inside `get_header`, once for `apns-expiration`); the model
  passes the same `now` to both, as both reads happen within the same call.
* `HTTP20Connection` creation and the request/response exchange are
  externals; they are recorded as `SendEvent`s so that claims about when a
  connection is created can be stated.  The request handed to the transport
  is the observable `WireRequest`. The body is kept as a `String`; the
  source's `.encode()` to UTF-8 bytes is a bijection on strings.
-/

namespace Aioapns

/-- Model of a Python value that can appear as a notification `message`.
`notSerializable tag` stands for any Python object `json.dumps` rejects. -/
inductive PyVal where
  | null
  | bool (b : Bool)
  | int (i : Int)
  | str (s : String)
  | arr (elems : List PyVal)
  | obj (members : List (String × PyVal))
  | notSerializable (tag : String)

/-- Left-brace character, written via its code point. -/
def lbrace : Char := Char.ofNat 123

/-- Right-brace character, written via its code point. -/
def rbrace : Char := Char.ofNat 125

mutual
/-- Whether `json.dumps` accepts the value (no `TypeError`). -/
def serializable : PyVal → Bool
  | .null => true
  | .bool _ => true
  | .int _ => true
  | .str _ => true
  | .arr xs => serializableElems xs
  | .obj ms => serializableMembers ms
  | .notSerializable _ => false
def serializableElems : List PyVal → Bool
  | [] => true
  | x :: xs => serializable x && serializableElems xs
def serializableMembers : List (String × PyVal) → Bool
  | [] => true
  | (_, v) :: ms => serializable v && serializableMembers ms
end

/-- Lowercase hexadecimal digit character for `n % 16`-sized values, via
the code points of '0' (48) and 'a' (97); out-of-range inputs give '0',
and callers always pass `n < 16`. -/
def hexDigitChar (n : Nat) : Char :=
  if n < 10 then Char.ofNat (48 + n)
  else if n < 16 then Char.ofNat (87 + n)
  else '0'

/-- Model of how `json.dumps(..., ensure_ascii=False)` escapes one character
inside a string literal: quote and backslash get a backslash escape, the five
controls with short names get those, any other control below 0x20 becomes a
lowercase `\u00xx` escape, and every other character (including all
non-ASCII) is emitted literally. -/
def escapeChar (c : Char) : List Char :=
  if c = '"' then ['\\', '"']
  else if c = '\\' then ['\\', '\\']
  else if c = Char.ofNat 8 then ['\\', 'b']
  else if c = Char.ofNat 9 then ['\\', 't']
  else if c = Char.ofNat 10 then ['\\', 'n']
  else if c = Char.ofNat 12 then ['\\', 'f']
  else if c = Char.ofNat 13 then ['\\', 'r']
  else if c.toNat < 32 then
    let hi := hexDigitChar (c.toNat / 16)
    let lo := hexDigitChar (c.toNat % 16)
    '\\' :: 'u' :: '0' :: '0' :: hi :: [lo]
  else [c]

/-- Escape every character of a string body. -/
def escapeChars : List Char → List Char
  | [] => []
  | c :: cs => escapeChar c ++ escapeChars cs

/-- Decimal digit characters of `n`, most significant first, onto `acc`.
The first argument is recursion fuel; any fuel above `n` is sufficient, and
`natDigits` supplies `n + 1`.  Structural recursion on the fuel keeps the
definition computable by kernel reduction. -/
def natDigitsGo : Nat → Nat → List Char → List Char
  | 0, _, acc => acc
  | fuel + 1, n, acc =>
      if n < 10 then hexDigitChar n :: acc
      else natDigitsGo fuel (n / 10) (hexDigitChar (n % 10) :: acc)

/-- Decimal digit characters of a natural number, as Python prints it. -/
def natDigits (n : Nat) : List Char := natDigitsGo (n + 1) n []

/-- Characters of a Python int: optional minus sign then decimal digits,
exactly the form `json.dumps` emits for an `int`. -/
def intChars (i : Int) : List Char :=
  if i < 0 then '-' :: natDigits i.natAbs else natDigits i.toNat

mutual
/-- Model of the text `json.dumps(v, ensure_ascii=False)` produces, as a
character list.  Defaults apply: separators are a comma-space between items
and a colon-space after keys.  Defined (as `[]`) even on values `dumps`
rejects; `dumpsOpt` gates on `serializable`. -/
def dumpVal : PyVal → List Char
  | .null => ("null").data
  | .bool true => ("true").data
  | .bool false => ("false").data
  | .int i => intChars i
  | .str s => '"' :: (escapeChars s.data ++ ['"'])
  | .arr xs => '[' :: (dumpElems xs ++ [']'])
  | .obj ms => lbrace :: (dumpMembers ms ++ [rbrace])
  | .notSerializable _ => []
def dumpElems : List PyVal → List Char
  | [] => []
  | [x] => dumpVal x
  | x :: y :: xs => dumpVal x ++ ',' :: ' ' :: dumpElems (y :: xs)
def dumpMembers : List (String × PyVal) → List Char
  | [] => []
  | [(k, v)] => '"' :: (escapeChars k.data ++ '"' :: ':' :: ' ' :: dumpVal v)
  | (k, v) :: m :: ms =>
      ('"' :: (escapeChars k.data ++ '"' :: ':' :: ' ' :: dumpVal v))
        ++ ',' :: ' ' :: dumpMembers (m :: ms)
end

/-- Model of `json.dumps(v, ensure_ascii=False)` as a string result. -/
def dumps (v : PyVal) : String := String.mk (dumpVal v)

/-- Model of `json.dumps` including its failure mode: `none` models the
`TypeError` raised on a value that cannot be serialized. -/
def dumpsOpt (v : PyVal) : Option String :=
  if serializable v then some (dumps v) else none

/-! Model of `json.loads`, the decoder used to state the body round-trip.
It covers the whole fragment `dumps` can emit (and arbitrary JSON whitespace
around tokens); numbers are decoded as Python ints, matching the value model.
In strict mode (the `json.loads` default) a raw control character below 0x20
inside a string literal is an error. -/

/-- JSON whitespace characters (space, tab, line feed, carriage return). -/
def jsonWs (c : Char) : Bool :=
  c = ' ' || c = Char.ofNat 9 || c = Char.ofNat 10 || c = Char.ofNat 13

/-- Drop leading JSON whitespace. -/
def skipJsonWs : List Char → List Char
  | [] => []
  | c :: cs => if jsonWs c then skipJsonWs cs else c :: cs

/-- Numeric value of a hexadecimal digit character. -/
def hexCharVal (c : Char) : Option Nat :=
  if c.isDigit then some (c.toNat - 48)
  else if 'a' ≤ c && c ≤ 'f' then some (c.toNat - 87)
  else if 'A' ≤ c && c ≤ 'F' then some (c.toNat - 55)
  else none

/-- Combined value of the four hex digits of a `\u` escape. -/
def hexQuad (a b c d : Char) : Option Nat :=
  match hexCharVal a, hexCharVal b, hexCharVal c, hexCharVal d with
  | some va, some vb, some vc, some vd => some (((va * 16 + vb) * 16 + vc) * 16 + vd)
  | _, _, _, _ => none

/-- Decode a single-character JSON escape (the character after a backslash,
other than `u`). -/
def escapeCode (e : Char) : Option Char :=
  if e = '"' then some '"'
  else if e = '\\' then some '\\'
  else if e = '/' then some '/'
  else if e = 'b' then some (Char.ofNat 8)
  else if e = 'f' then some (Char.ofNat 12)
  else if e = 'n' then some (Char.ofNat 10)
  else if e = 'r' then some (Char.ofNat 13)
  else if e = 't' then some (Char.ofNat 9)
  else none

/-- Decode the body of a JSON string literal, after its opening quote:
returns the decoded characters and the input after the closing quote.  The
first argument is recursion fuel (one unit per decoded character); any fuel
above the input length is sufficient, and `parseJStrFull` supplies it. -/
def parseJStr : Nat → List Char → Option (List Char × List Char)
  | 0, _ => none
  | fuel + 1, cs0 =>
      match cs0 with
      | [] => none
      | c :: cs =>
          if c = '"' then some ([], cs)
          else if c = '\\' then
            match cs with
            | 'u' :: a :: b :: d :: e :: cs2 =>
                match hexQuad a b d e with
                | some n => (parseJStr fuel cs2).map fun p => (Char.ofNat n :: p.1, p.2)
                | none => none
            | e :: cs2 =>
                match escapeCode e with
                | some ch => (parseJStr fuel cs2).map fun p => (ch :: p.1, p.2)
                | none => none
            | [] => none
          else if c.toNat < 32 then none
          else (parseJStr fuel cs).map fun p => (c :: p.1, p.2)

/-- Decode a JSON string literal body with sufficient fuel for its input. -/
def parseJStrFull (cs : List Char) : Option (List Char × List Char) :=
  parseJStr (cs.length + 1) cs

/-- Whether the input cannot extend a decimal digit run: empty, or headed by
a non-digit.  Every JSON delimiter and end of input qualifies. -/
def noDigitHead : List Char → Bool
  | [] => true
  | c :: _ => !c.isDigit

/-- Split a leading run of decimal digits from the input. -/
def takeDigits : List Char → List Char × List Char
  | [] => ([], [])
  | c :: cs =>
      if c.isDigit then
        let p := takeDigits cs
        (c :: p.1, p.2)
      else ([], c :: cs)

/-- Numeric value of a run of decimal digit characters. -/
def digitsVal : List Char → Nat → Nat
  | [], acc => acc
  | c :: cs, acc => digitsVal cs (acc * 10 + (c.toNat - 48))

mutual
/-- Decode one JSON value (after optional leading whitespace).  The fuel
argument makes the recursion structural; any fuel above the input length is
sufficient, and `loads` supplies it. -/
def parseJVal : Nat → List Char → Option (PyVal × List Char)
  | 0, _ => none
  | fuel + 1, cs0 =>
      match skipJsonWs cs0 with
      | [] => none
      | c :: cs =>
          if c = 'n' then
            match cs with
            | 'u' :: 'l' :: 'l' :: r => some (.null, r)
            | _ => none
          else if c = 't' then
            match cs with
            | 'r' :: 'u' :: 'e' :: r => some (.bool true, r)
            | _ => none
          else if c = 'f' then
            match cs with
            | 'a' :: 'l' :: 's' :: 'e' :: r => some (.bool false, r)
            | _ => none
          else if c = '"' then
            (parseJStrFull cs).map fun p => (.str (String.mk p.1), p.2)
          else if c = '[' then
            match skipJsonWs cs with
            | [] => none
            | d :: cs2 =>
                if d = ']' then some (.arr [], cs2)
                else (parseJElems fuel (d :: cs2)).map fun p => (.arr p.1, p.2)
          else if c = lbrace then
            match skipJsonWs cs with
            | [] => none
            | d :: cs2 =>
                if d = rbrace then some (.obj [], cs2)
                else (parseJMembers fuel (d :: cs2)).map fun p => (.obj p.1, p.2)
          else if c = '-' then
            match takeDigits cs with
            | ([], _) => none
            | (ds, r) => some (.int (-(digitsVal ds 0 : Int)), r)
          else if c.isDigit then
            match takeDigits (c :: cs) with
            | (ds, r) => some (.int ((digitsVal ds 0 : Int)), r)
          else none
/-- Decode the elements of a nonempty JSON array, up to and including the
closing bracket. -/
def parseJElems : Nat → List Char → Option (List PyVal × List Char)
  | 0, _ => none
  | fuel + 1, cs =>
      match parseJVal fuel cs with
      | none => none
      | some (v, r) =>
          match skipJsonWs r with
          | [] => none
          | c :: r2 =>
              if c = ',' then
                (parseJElems fuel (skipJsonWs r2)).map fun p => (v :: p.1, p.2)
              else if c = ']' then some ([v], r2)
              else none
/-- Decode the members of a nonempty JSON object, up to and including the
closing brace. -/
def parseJMembers : Nat → List Char → Option (List (String × PyVal) × List Char)
  | 0, _ => none
  | fuel + 1, cs =>
      match skipJsonWs cs with
      | [] => none
      | c :: r0 =>
          if c = '"' then
            match parseJStrFull r0 with
            | none => none
            | some (kcs, r1) =>
                match skipJsonWs r1 with
                | [] => none
                | d :: r2 =>
                    if d = ':' then
                      match parseJVal fuel (skipJsonWs r2) with
                      | none => none
                      | some (v, r3) =>
                          match skipJsonWs r3 with
                          | [] => none
                          | e :: r4 =>
                              if e = ',' then
                                (parseJMembers fuel (skipJsonWs r4)).map
                                  fun p => ((String.mk kcs, v) :: p.1, p.2)
                              else if e = rbrace then
                                some ([(String.mk kcs, v)], r4)
                              else none
                    else none
          else none
end

/-- Model of `json.loads` on the fragment relevant to notification bodies:
decode one JSON document, allowing trailing whitespace only. -/
def loads (s : String) : Option PyVal :=
  match parseJVal (s.length + 1) s.data with
  | some (v, rest) => if skipJsonWs rest = [] then some v else none
  | none => none

/-! Model of `aioapns/common.py`: push types and `NotificationRequest`. -/

/-- Python `str()` applied to a value that is already a string returns it
unchanged; the priority constants in `common.py` (`PRIORITY_NORMAL`,
`PRIORITY_HIGH`) are strings. -/
def pyStrOfStr (s : String) : String := s

/-- Priority constant `PRIORITY_NORMAL` from `common.py`. -/
def PRIORITY_NORMAL : String := "5"

/-- Priority constant `PRIORITY_HIGH` from `common.py`. -/
def PRIORITY_HIGH : String := "10"

/-- The `PushType` enumeration from `common.py`. -/
inductive PushType where
  | alert
  | background
  | voip
  | complication
  | fileprovider
  | mdm
deriving DecidableEq

/-- Wire string value of a push type (the enum member values). -/
def PushType.value : PushType → String
  | .alert => "alert"
  | .background => "background"
  | .voip => "voip"
  | .complication => "complication"
  | .fileprovider => "fileprovider"
  | .mdm => "mdm"

/-- Fixed-width lowercase hexadecimal rendering of `n % 16 ^ w`, most
significant digit first. -/
def hexPad : Nat → Nat → List Char
  | 0, _ => []
  | w + 1, n => hexPad w (n / 16) ++ [hexDigitChar (n % 16)]

/-- Numeric value of a run of hexadecimal digit characters (used to reason
about `hexPad`). -/
def hexRunVal : List Char → Nat → Nat
  | [], acc => acc
  | c :: cs, acc => hexRunVal cs (acc * 16 + (hexCharVal c).getD 0)

/-- Model of `str(uuid.uuid4())`.  A version-4 UUID draws 122 random bits,
passed here explicitly as `r < 2 ^ 122`, and fixes six bits: the version
nibble is 4 and the two top bits of the variant nibble are `10`.  The string
form is five lowercase-hex groups of 8, 4, 4, 4 and 12 digits joined by
hyphens. -/
def uuid4String (r : Nat) : String :=
  String.mk
    (hexPad 8 (r / 2 ^ 90) ++ '-' ::
      (hexPad 4 (r / 2 ^ 74 % 2 ^ 16) ++ '-' ::
        (hexPad 4 (16384 + r / 2 ^ 62 % 2 ^ 12) ++ '-' ::
          (hexPad 4 (32768 + r / 2 ^ 48 % 2 ^ 14) ++ '-' ::
            hexPad 12 (r % 2 ^ 48)))))

/-- Model of Python `x or y` for an optional string `x`: `None` and the
empty string are falsy, any other string is truthy. -/
def pyOrStr (x : Option String) (y : String) : String :=
  match x with
  | none => y
  | some s => if s = "" then y else s

/-- Model of Python truthiness of an optional string (`not x`): `None` and
the empty string are falsy. -/
def pyFalsyOptStr (x : Option String) : Bool :=
  match x with
  | none => true
  | some s => s = ""

/-- The `NotificationRequest` record from `common.py`. -/
structure NotificationRequest where
  device_token : String
  message : PyVal
  notification_id : String
  time_to_live : Option Int
  priority : Option String
  collapse_key : Option String
  push_type : Option PushType

/-- Model of `NotificationRequest.__init__`: every argument is stored as
given except the identifier, which is `notification_id or str(uuid4())`;
`uuidEntropy` is the random draw the single `uuid4()` call would make. -/
def NotificationRequest.make (uuidEntropy : Nat) (device_token : String) (message : PyVal)
    (notification_id : Option String) (time_to_live : Option Int) (priority : Option String)
    (collapse_key : Option String) (push_type : Option PushType) : NotificationRequest :=
  { device_token
    message
    notification_id := pyOrStr notification_id (uuid4String uuidEntropy)
    time_to_live
    priority
    collapse_key
    push_type }

/-! Model of `aioapns/connection.py`. -/

/-- Output of the external signing collaborator `jwt.encode`: a real JWT
embeds its payload and headers, so the token is modelled as the record of
exactly the inputs the source passes to `jwt.encode`. -/
structure JwtToken where
  iss : String
  iat : Int
  kid : String
  key : String
  alg : String
deriving DecidableEq

/-- Model of the `jwt.encode` call in `get_header` (payload `iss`/`iat`,
key, algorithm `ES256`, header `kid`). -/
def jwtEncode (team_id : String) (iat : Int) (key : String) (key_id : String) : JwtToken :=
  { iss := team_id, iat := iat, kid := key_id, key := key, alg := "ES256" }

/-- An authorization header value: the source formats it as the string
`"bearer " + token`; scheme and token are kept as separate fields. -/
structure AuthHeader where
  scheme : String
  token : JwtToken
deriving DecidableEq

/-- The `JWTAuthorizationHeaderProvider` class.  The two private fields
`__issued_at` and `__header` are `None` together at construction and are
written together on every refresh, so they are modelled as one optional
pair `cached`. -/
structure JWTAuthorizationHeaderProvider where
  key : String
  key_id : String
  team_id : String
  cached : Option (Int × AuthHeader)
deriving DecidableEq

/-- Class attribute `TOKEN_TTL = 30 * 60` (seconds). -/
def JWTAuthorizationHeaderProvider.TOKEN_TTL : Int := 30 * 60

/-- Model of `JWTAuthorizationHeaderProvider.__init__`. -/
def JWTAuthorizationHeaderProvider.init (key key_id team_id : String) :
    JWTAuthorizationHeaderProvider :=
  { key := key, key_id := key_id, team_id := team_id, cached := none }

/-- The condition under which `get_header` signs a new token:
`not self.__header or self.__issued_at < now - self.TOKEN_TTL`. -/
def JWTAuthorizationHeaderProvider.regenerates (p : JWTAuthorizationHeaderProvider)
    (now : Int) : Bool :=
  match p.cached with
  | none => true
  | some (iat, _) => iat < now - TOKEN_TTL

/-- Model of `JWTAuthorizationHeaderProvider.get_header`: if no header is
cached, or the cached issue timestamp is older than `now - TOKEN_TTL`, sign
a fresh token with `iat = int(now)` and cache it; otherwise return the
cached header unchanged.  Returns the header together with the provider
state after the call (the source mutates `self`). -/
def JWTAuthorizationHeaderProvider.get_header (p : JWTAuthorizationHeaderProvider)
    (now : Int) : AuthHeader × JWTAuthorizationHeaderProvider :=
  match p.cached with
  | some (iat, h) =>
      if iat < now - TOKEN_TTL then
        let header : AuthHeader := ⟨"bearer", jwtEncode p.team_id now p.key p.key_id⟩
        (header, { p with cached := some (now, header) })
      else (h, p)
  | none =>
      let header : AuthHeader := ⟨"bearer", jwtEncode p.team_id now p.key p.key_id⟩
      (header, { p with cached := some (now, header) })

/-- The protocol subclass hierarchy collapses to this choice: the two
concrete endpoint classes the pool selects between. -/
inductive ProtocolClass where
  | production
  | development
deriving DecidableEq

/-- Class attribute `APNS_SERVER` of the two concrete protocol classes. -/
def APNS_SERVER : ProtocolClass → String
  | .production => "api.push.apple.com"
  | .development => "api.development.push.apple.com"

/-- Class attribute `APNS_PORT`, set to 443 by `APNsTLSClientProtocol` for
both concrete classes. -/
def APNS_PORT : ProtocolClass → Nat := fun _ => 443

/-- Class attribute `SECURE = True`, inherited unchanged by both concrete
classes. -/
def SECURE : ProtocolClass → Bool := fun _ => true

/-- The headers dictionary `send_notification` builds, with one optional
field per conditionally-inserted key. -/
structure WireHeaders where
  apns_id : String
  apns_topic : Option String
  apns_expiration : Option String
  apns_priority : Option String
  apns_collapse_id : Option String
  apns_push_type : Option String
  authorization : Option AuthHeader
deriving DecidableEq

/-- The request handed to `HTTP20Connection.request`. -/
structure WireRequest where
  method : String
  url : String
  body : String
  headers : WireHeaders
deriving DecidableEq

/-- Observable transport effects of one `send_notification` call: creating
an `HTTP20Connection` and issuing the request/response exchange on it. -/
inductive SendEvent where
  | connCreated (host : String) (port : Nat) (secure : Bool)
  | requested (request : WireRequest)
deriving DecidableEq

/-- Instance state of `APNsBaseClientProtocol` (shared by both concrete
protocol classes, distinguished by `protocolClass`).  The three tracking
dictionaries are modelled as association lists. -/
structure APNsBaseClientProtocol where
  protocolClass : ProtocolClass
  apns_topic : Option String
  auth_provider : Option JWTAuthorizationHeaderProvider
  requests : List (String × NotificationRequest)
  request_streams : List (Nat × String)
  request_statuses : List (String × String)

/-- Model of `APNsBaseClientProtocol.__init__`: the three tracking
dictionaries start empty. -/
def APNsBaseClientProtocol.init (protocolClass : ProtocolClass) (apns_topic : Option String)
    (auth_provider : Option JWTAuthorizationHeaderProvider) : APNsBaseClientProtocol :=
  { protocolClass
    apns_topic
    auth_provider
    requests := []
    request_streams := []
    request_statuses := [] }

/-- The headers-building phase of `APNsBaseClientProtocol.send_notification`
(lines 65 to 79): unconditional `apns-id` and `apns-topic`; `apns-expiration`
as `str(int(time.time()) + time_to_live)` when `time_to_live is not None`;
`apns-priority` as `str(priority)` when set; `apns-collapse-id` when set;
`apns-push-type` as the enum value when set; `authorization` from the
provider when one is present (which may refresh the provider's cache). -/
def APNsBaseClientProtocol.buildHeaders (p : APNsBaseClientProtocol)
    (request : NotificationRequest) (now : Int) : WireHeaders × APNsBaseClientProtocol :=
  let auth : Option AuthHeader × APNsBaseClientProtocol :=
    match p.auth_provider with
    | some provider =>
        let r := provider.get_header now
        (some r.1, { p with auth_provider := some r.2 })
    | none => (none, p)
  ({ apns_id := request.notification_id
     apns_topic := p.apns_topic
     apns_expiration := request.time_to_live.map fun ttl => String.mk (intChars (now + ttl))
     apns_priority := request.priority.map pyStrOfStr
     apns_collapse_id := request.collapse_key
     apns_push_type := request.push_type.map PushType.value
     authorization := auth.1 }, auth.2)

/-- Error value modelling the `TypeError` that `json.dumps` raises on an
unserializable payload. -/
def serializationFailure : String := "TypeError: message is not JSON serializable"

/-- Model of `APNsBaseClientProtocol.send_notification`: build the headers,
serialize the message body (failing fast on a `TypeError`, before any
connection exists), then create a fresh `HTTP20Connection` to the class
endpoint and perform one request/response exchange on it.  Returns the
outcome, the protocol state after the call, and the transport events. -/
def APNsBaseClientProtocol.send_notification (p : APNsBaseClientProtocol)
    (request : NotificationRequest) (now : Int) :
    Except String WireRequest × APNsBaseClientProtocol × List SendEvent :=
  let hs := p.buildHeaders request now
  match dumpsOpt request.message with
  | none => (.error serializationFailure, hs.2, [])
  | some body =>
      let wire : WireRequest :=
        { method := "POST"
          url := "/3/device/" ++ request.device_token
          body := body
          headers := hs.1 }
      (.ok wire, hs.2,
        [SendEvent.connCreated (APNS_SERVER p.protocolClass) (APNS_PORT p.protocolClass)
           (SECURE p.protocolClass),
         SendEvent.requested wire])

/-- State of `APNsBaseConnectionPool` after `__init__` (the source's
`protocol_class` attribute is the field `protocolClass`). -/
structure APNsBaseConnectionPool where
  apns_topic : Option String
  max_connections : Nat
  protocolClass : ProtocolClass
  connections : List APNsBaseClientProtocol
  max_connection_attempts : Option Nat

/-- Model of `APNsBaseConnectionPool.__init__`: store the topic and bounds,
pick the development protocol class when `use_sandbox` else the production
one, and start with an empty connections list. -/
def APNsBaseConnectionPool.init (topic : Option String) (max_connections : Nat)
    (max_connection_attempts : Option Nat) (use_sandbox : Bool) : APNsBaseConnectionPool :=
  { apns_topic := topic
    max_connections
    protocolClass := if use_sandbox then .development else .production
    connections := []
    max_connection_attempts }

/-- State of `APNsCertConnectionPool`: the certificate the pool was
constructed from is kept in parsed form (its subject unique identifier, the
`cert.get_subject().UID` field, may be absent).  TLS context handling is an
external collaborator and is not modelled. -/
structure Certificate where
  subject_UID : Option String

/-- The certificate-based pool. -/
structure APNsCertConnectionPool where
  base : APNsBaseConnectionPool
  cert : Certificate

/-- Model of `APNsCertConnectionPool.__init__`.  After the base init, when
the stored topic is falsy (`not self.apns_topic`, so `None` or the empty
string) the certificate file is parsed and the topic becomes the subject
unique identifier.  The boolean result records whether that parse happened. -/
def APNsCertConnectionPool.init (cert : Certificate) (topic : Option String)
    (max_connections : Nat) (max_connection_attempts : Option Nat) (use_sandbox : Bool) :
    APNsCertConnectionPool × Bool :=
  let base := APNsBaseConnectionPool.init topic max_connections max_connection_attempts use_sandbox
  if pyFalsyOptStr base.apns_topic then
    ({ base := { base with apns_topic := cert.subject_UID }, cert }, true)
  else
    ({ base, cert }, false)

/-- Model of `APNsCertConnectionPool.create_connection`: a fresh protocol
instance with no credential provider. -/
def APNsCertConnectionPool.create_connection (pool : APNsCertConnectionPool) :
    APNsBaseClientProtocol :=
  APNsBaseClientProtocol.init pool.base.protocolClass pool.base.apns_topic none

/-- Model of `APNsBaseConnectionPool.send_notification` for the certificate
pool: create a connection and delegate to it.  The pool itself is not
changed by the call. -/
def APNsCertConnectionPool.send_notification (pool : APNsCertConnectionPool)
    (request : NotificationRequest) (now : Int) :
    Except String WireRequest × APNsBaseClientProtocol × List SendEvent :=
  (pool.create_connection).send_notification request now

/-- The token-based pool: the key file is read once at construction and its
contents stored. -/
structure APNsKeyConnectionPool where
  base : APNsBaseConnectionPool
  key : String
  key_id : String
  team_id : String

/-- Model of `APNsKeyConnectionPool.__init__` (`key_file_contents` is what
reading the key file at construction yields). -/
def APNsKeyConnectionPool.init (key_file_contents key_id team_id topic : String)
    (max_connections : Nat) (max_connection_attempts : Option Nat) (use_sandbox : Bool) :
    APNsKeyConnectionPool :=
  { base := APNsBaseConnectionPool.init (some topic) max_connections max_connection_attempts
      use_sandbox
    key := key_file_contents
    key_id
    team_id }

/-- Model of `APNsKeyConnectionPool.create_connection`: construct a new
`JWTAuthorizationHeaderProvider` (with an empty cache) and a fresh protocol
instance holding it. -/
def APNsKeyConnectionPool.create_connection (pool : APNsKeyConnectionPool) :
    APNsBaseClientProtocol :=
  APNsBaseClientProtocol.init pool.base.protocolClass pool.base.apns_topic
    (some (JWTAuthorizationHeaderProvider.init pool.key pool.key_id pool.team_id))

/-- Model of `APNsBaseConnectionPool.send_notification` for the token pool:
create a connection and delegate to it.  The pool itself is not changed by
the call. -/
def APNsKeyConnectionPool.send_notification (pool : APNsKeyConnectionPool)
    (request : NotificationRequest) (now : Int) :
    Except String WireRequest × APNsBaseClientProtocol × List SendEvent :=
  (pool.create_connection).send_notification request now

/-- Authorization header carried by a send outcome, when the exchange
happened. -/
def authOf : Except String WireRequest → Option AuthHeader
  | .ok w => w.headers.authorization
  | .error _ => none

/-- Number of transport connections created in an event list. -/
def countConnCreated : List SendEvent → Nat
  | [] => 0
  | SendEvent.connCreated _ _ _ :: es => countConnCreated es + 1
  | SendEvent.requested _ :: es => countConnCreated es

/-- A sequence of `send_notification` calls on one token pool, each with its
own call time and request. -/
def keyPoolSendMany (pool : APNsKeyConnectionPool) :
    List (Int × NotificationRequest) →
      List (Except String WireRequest × APNsBaseClientProtocol × List SendEvent)
  | [] => []
  | (t, r) :: rest => pool.send_notification r t :: keyPoolSendMany pool rest

/-- Lowercase hexadecimal digit characters. -/
def lowerHexDigit (c : Char) : Bool := c.isDigit || ('a' ≤ c && c ≤ 'f')

/-- Split a character list on hyphens. -/
def splitDash : List Char → List (List Char)
  | [] => [[]]
  | c :: cs =>
      if c = '-' then [] :: splitDash cs
      else
        match splitDash cs with
        | [] => [[c]]
        | g :: gs => (c :: g) :: gs

/-- Syntactic validity of a canonical UUID string: five lowercase-hex groups
of 8, 4, 4, 4 and 12 digits joined by hyphens. -/
def isValidUuidStr (s : String) : Bool :=
  match splitDash s.data with
  | [g1, g2, g3, g4, g5] =>
      g1.length = 8 && g2.length = 4 && g3.length = 4 && g4.length = 4 && g5.length = 12
        && (g1 ++ (g2 ++ (g3 ++ (g4 ++ g5)))).all lowerHexDigit
  | _ => false

/-- Well-formedness of a provider state: the cached issue timestamp equals
the `iat` claim embedded in the cached token.  It holds at construction
(nothing is cached) and `get_header` writes the two together. -/
def JWTAuthorizationHeaderProvider.wellFormed (p : JWTAuthorizationHeaderProvider) : Prop :=
  ∀ iat h, p.cached = some (iat, h) → h.token.iat = iat

/-- A concrete token-based pool used as a test fixture. -/
def demoKeyPool : APNsKeyConnectionPool :=
  APNsKeyConnectionPool.init ("PRIVATE-KEY") ("KEYID") ("TEAMID") ("com.example.app") 10 none
    false

/-- The payload from the spec's body round-trip example. -/
def demoMessage : PyVal := .obj [("aps", .obj [("alert", .str "hi")])]

/-- A concrete notification request with a serializable payload. -/
def demoReq : NotificationRequest :=
  { device_token := "abcdef"
    message := demoMessage
    notification_id := "nid-1"
    time_to_live := some 60
    priority := none
    collapse_key := none
    push_type := some .alert }

/-- A concrete notification request whose payload `json.dumps` rejects. -/
def demoBadReq : NotificationRequest :=
  { device_token := "abcdef"
    message := .notSerializable ("set")
    notification_id := "nid-2"
    time_to_live := none
    priority := none
    collapse_key := none
    push_type := none }

/-- A concrete certificate whose subject carries a UID. -/
def demoCert : Certificate := ⟨some ("com.example.app")⟩

/-- A concrete protocol instance with a credential provider attached. -/
def demoProtocol : APNsBaseClientProtocol :=
  APNsBaseClientProtocol.init .production (some ("com.example.app"))
    (some (JWTAuthorizationHeaderProvider.init ("PRIVATE-KEY") ("KEYID") ("TEAMID")))

/-! Auxiliary lemmas about decimal digit rendering. -/

theorem string_mk_data (s : String) : String.mk s.data = s := by
  cases s
  rfl

theorem hexDigitChar_isDigit (n : Nat) (h : n < 10) : (hexDigitChar n).isDigit = true := by
  interval_cases n <;> decide

theorem hexDigitChar_sub48 (n : Nat) (h : n < 10) : (hexDigitChar n).toNat - 48 = n := by
  interval_cases n <;> decide

theorem natDigitsGo_acc (fuel : Nat) :
    ∀ n acc, natDigitsGo fuel n acc = natDigitsGo fuel n [] ++ acc := by
  induction fuel with
  | zero => intro n acc; simp [natDigitsGo]
  | succ f ih =>
      intro n acc
      by_cases h : n < 10
      · simp [natDigitsGo, h]
      · simp only [natDigitsGo, if_neg h]
        rw [ih (n / 10) (hexDigitChar (n % 10) :: acc), ih (n / 10) [hexDigitChar (n % 10)]]
        simp

theorem natDigitsGo_ne_nil (f n : Nat) : natDigitsGo (f + 1) n [] ≠ [] := by
  by_cases h : n < 10
  · simp [natDigitsGo, h]
  · simp only [natDigitsGo, if_neg h]
    rw [natDigitsGo_acc]
    simp

theorem natDigitsGo_digits (fuel : Nat) :
    ∀ n, n < fuel → ∀ c ∈ natDigitsGo fuel n [], c.isDigit = true := by
  induction fuel with
  | zero => intro n hn; omega
  | succ f ih =>
      intro n hn c hc
      by_cases h : n < 10
      · simp [natDigitsGo, h] at hc
        subst hc
        exact hexDigitChar_isDigit n h
      · simp only [natDigitsGo, if_neg h] at hc
        rw [natDigitsGo_acc] at hc
        rcases List.mem_append.mp hc with h1 | h2
        · exact ih (n / 10) (by omega) c h1
        · rw [List.mem_singleton] at h2
          subst h2
          exact hexDigitChar_isDigit _ (Nat.mod_lt _ (by omega))

theorem digitsVal_append (ds1 : List Char) :
    ∀ ds2 a, digitsVal (ds1 ++ ds2) a = digitsVal ds2 (digitsVal ds1 a) := by
  induction ds1 with
  | nil => intro ds2 a; rfl
  | cons c cs ih => intro ds2 a; simp [digitsVal, ih]

theorem natDigitsGo_val (fuel : Nat) :
    ∀ n a, n < fuel →
      digitsVal (natDigitsGo fuel n []) a = a * 10 ^ (natDigitsGo fuel n []).length + n := by
  induction fuel with
  | zero => intro n a hn; omega
  | succ f ih =>
      intro n a hn
      by_cases h : n < 10
      · simp [natDigitsGo, h, digitsVal, hexDigitChar_sub48 n h]
      · simp only [natDigitsGo, if_neg h]
        rw [natDigitsGo_acc, digitsVal_append, ih (n / 10) a (by omega)]
        simp only [digitsVal, List.length_append, List.length_singleton]
        rw [hexDigitChar_sub48 _ (Nat.mod_lt _ (by omega))]
        have hdm : 10 * (n / 10) + n % 10 = n := Nat.div_add_mod n 10
        rw [pow_succ]
        ring_nf
        omega

theorem digitsVal_natDigits (n : Nat) : digitsVal (natDigits n) 0 = n := by
  rw [natDigits, natDigitsGo_val (n + 1) n 0 (by omega)]
  simp

theorem natDigits_ne_nil (n : Nat) : natDigits n ≠ [] := natDigitsGo_ne_nil n n

theorem natDigits_digits (n : Nat) : ∀ c ∈ natDigits n, c.isDigit = true :=
  natDigitsGo_digits (n + 1) n (by omega)

theorem natDigits_head (n : Nat) :
    ∃ c t, natDigits n = c :: t ∧ c.isDigit = true := by
  match h : natDigits n with
  | [] => exact absurd h (natDigits_ne_nil n)
  | c :: t => exact ⟨c, t, rfl, natDigits_digits n c (h ▸ List.mem_cons_self c t)⟩

theorem takeDigits_stop (cs : List Char) (h : noDigitHead cs = true) :
    takeDigits cs = ([], cs) := by
  cases cs with
  | nil => rfl
  | cons c t =>
      simp only [noDigitHead, Bool.not_eq_true'] at h
      simp [takeDigits, h]

theorem takeDigits_run (ds : List Char) (hds : ∀ c ∈ ds, c.isDigit = true) :
    ∀ rest, noDigitHead rest = true → takeDigits (ds ++ rest) = (ds, rest) := by
  induction ds with
  | nil => intro rest hrest; simpa using takeDigits_stop rest hrest
  | cons c t ih =>
      intro rest hrest
      have hc : c.isDigit = true := hds c (List.mem_cons_self c t)
      simp [takeDigits, hc, ih (fun x hx => hds x (List.mem_cons_of_mem c hx)) rest hrest]

/-! Auxiliary lemmas about string escaping. -/

theorem hexCharVal_hexDigitChar (n : Nat) (h : n < 16) :
    hexCharVal (hexDigitChar n) = some n := by
  interval_cases n <;> decide

theorem parseJStr_escapeChar (fuel : Nat) (c : Char) (X : List Char) :
    parseJStr (fuel + 1) (escapeChar c ++ X)
      = (parseJStr fuel X).map fun p => (c :: p.1, p.2) := by
  by_cases h1 : c = '"'
  · subst h1; rfl
  by_cases h2 : c = '\\'
  · subst h2; rfl
  by_cases h3 : c = Char.ofNat 8
  · subst h3; rfl
  by_cases h4 : c = Char.ofNat 9
  · subst h4; rfl
  by_cases h5 : c = Char.ofNat 10
  · subst h5; rfl
  by_cases h6 : c = Char.ofNat 12
  · subst h6; rfl
  by_cases h7 : c = Char.ofNat 13
  · subst h7; rfl
  by_cases h8 : c.toNat < 32
  · have hesc : escapeChar c
        = '\\' :: 'u' :: '0' :: '0' :: hexDigitChar (c.toNat / 16)
            :: [hexDigitChar (c.toNat % 16)] := by
      simp [escapeChar, h1, h2, h3, h4, h5, h6, h7, h8]
    have hhi := hexCharVal_hexDigitChar (c.toNat / 16) (by omega)
    have hlo := hexCharVal_hexDigitChar (c.toNat % 16) (Nat.mod_lt _ (by omega))
    have hval : ((0 * 16 + 0) * 16 + c.toNat / 16) * 16 + c.toNat % 16 = c.toNat := by omega
    rw [hesc]
    show (match hexQuad '0' '0' (hexDigitChar (c.toNat / 16)) (hexDigitChar (c.toNat % 16)) with
      | some n => (parseJStr fuel X).map fun p => (Char.ofNat n :: p.1, p.2)
      | none => none) = (parseJStr fuel X).map fun p => (c :: p.1, p.2)
    simp only [hexQuad, hhi, hlo]
    show (parseJStr fuel X).map (fun p =>
        (Char.ofNat (((0 * 16 + 0) * 16 + c.toNat / 16) * 16 + c.toNat % 16) :: p.1, p.2))
      = (parseJStr fuel X).map fun p => (c :: p.1, p.2)
    rw [hval, Char.ofNat_toNat]
  · have hesc : escapeChar c = [c] := by
      simp [escapeChar, h1, h2, h3, h4, h5, h6, h7, h8]
    rw [hesc]
    show parseJStr (fuel + 1) (c :: X) = (parseJStr fuel X).map fun p => (c :: p.1, p.2)
    rw [parseJStr.eq_def]
    simp only [if_neg h1, if_neg h2, if_neg h8]

theorem parseJStr_escapeChars (s : List Char) :
    ∀ fuel X, s.length < fuel →
      parseJStr fuel (escapeChars s ++ '"' :: X) = some (s, X) := by
  induction s with
  | nil =>
      intro fuel X h
      match fuel, h with
      | f + 1, _ => rfl
  | cons c cs ih =>
      intro fuel X h
      match fuel, h with
      | f + 1, h =>
          rw [escapeChars, List.append_assoc, parseJStr_escapeChar,
            ih f X (by simpa using Nat.lt_of_succ_lt_succ h)]
          rfl

theorem escapeChar_length_pos (c : Char) : 1 ≤ (escapeChar c).length := by
  rw [escapeChar.eq_def]
  repeat' split
  all_goals simp

theorem escapeChars_length (s : List Char) : s.length ≤ (escapeChars s).length := by
  induction s with
  | nil => simp [escapeChars]
  | cons c cs ih =>
      rw [escapeChars, List.length_append, List.length_cons]
      have := escapeChar_length_pos c
      omega

theorem parseJStrFull_escapeChars (s : List Char) (X : List Char) :
    parseJStrFull (escapeChars s ++ '"' :: X) = some (s, X) := by
  rw [parseJStrFull]
  apply parseJStr_escapeChars
  have := escapeChars_length s
  simp only [List.length_append, List.length_cons]
  omega

/-! Head-character facts used to steer the value decoder. -/

theorem digit_is_not (c : Char) (h : c.isDigit = true) :
    jsonWs c = false ∧ c ≠ ']' ∧ c ≠ rbrace ∧ c ≠ ',' ∧ (c ≠ '"' ∧ c ≠ '[' ∧ c ≠ lbrace)
      ∧ (c ≠ '-' ∧ c ≠ 'n') ∧ (c ≠ 'f' ∧ c ≠ 't') := by
  have hne : ∀ d : Char, d.isDigit = false → c ≠ d := by
    intro d hd heq
    rw [heq, hd] at h
    cases h
  refine ⟨?_, hne _ rfl, hne _ rfl, hne _ rfl, ⟨hne _ rfl, hne _ rfl, hne _ rfl⟩,
    ⟨hne _ rfl, hne _ rfl⟩, hne _ rfl, hne _ rfl⟩
  have w1 := hne ' ' rfl
  have w2 := hne (Char.ofNat 9) rfl
  have w3 := hne (Char.ofNat 10) rfl
  have w4 := hne (Char.ofNat 13) rfl
  simp [jsonWs, w1, w2, w3, w4]

theorem skipJsonWs_cons (c : Char) (cs : List Char) (h : jsonWs c = false) :
    skipJsonWs (c :: cs) = c :: cs := by
  simp [skipJsonWs, h]

theorem dumpVal_head (v : PyVal) (hs : serializable v = true) :
    ∃ c t, dumpVal v = c :: t ∧ jsonWs c = false ∧ c ≠ ']' ∧ c ≠ rbrace := by
  cases v with
  | int i =>
      by_cases hneg : i < 0
      · refine ⟨'-', natDigits i.natAbs, ?_, ?_, ?_, ?_⟩
        · simp [dumpVal, intChars, hneg]
        all_goals decide
      · obtain ⟨c, t, hct, hc⟩ := natDigits_head i.toNat
        obtain ⟨hws, hrb, hcb, _⟩ := digit_is_not c hc
        refine ⟨c, t, ?_, hws, hrb, hcb⟩
        simp [dumpVal, intChars, hneg, hct]
  | notSerializable tag => exact absurd hs (by simp [serializable])
  | null => refine ⟨'n', _, rfl, ?_, ?_, ?_⟩ <;> decide
  | bool b =>
      cases b
      · refine ⟨'f', _, rfl, ?_, ?_, ?_⟩ <;> decide
      · refine ⟨'t', _, rfl, ?_, ?_, ?_⟩ <;> decide
  | str s => refine ⟨'"', _, rfl, ?_, ?_, ?_⟩ <;> decide
  | arr xs => refine ⟨'[', _, rfl, ?_, ?_, ?_⟩ <;> decide
  | obj ms => refine ⟨lbrace, _, rfl, ?_, ?_, ?_⟩ <;> decide

theorem dumpElems_cons_shape (x : PyVal) (xs : List PyVal) (hs : serializable x = true) :
    ∃ c t, dumpElems (x :: xs) = c :: t ∧ jsonWs c = false ∧ c ≠ ']' ∧ c ≠ rbrace := by
  obtain ⟨c, t, hct, h1, h2, h3⟩ := dumpVal_head x hs
  cases xs with
  | nil => exact ⟨c, t, by simp [dumpElems, hct], h1, h2, h3⟩
  | cons y ys =>
      exact ⟨c, t ++ ',' :: ' ' :: dumpElems (y :: ys), by simp [dumpElems, hct], h1, h2, h3⟩

theorem dumpMembers_cons_shape (k : String) (w : PyVal) (ms : List (String × PyVal)) :
    ∃ t, dumpMembers ((k, w) :: ms) = '"' :: t := by
  cases ms with
  | nil => exact ⟨_, rfl⟩
  | cons m ms2 =>
      exact ⟨(escapeChars k.data ++ '"' :: ':' :: ' ' :: dumpVal w)
        ++ ',' :: ' ' :: dumpMembers (m :: ms2), by simp [dumpMembers]⟩

/-! Value-decoder dispatch lemmas. -/

theorem parseJVal_digit (fuel : Nat) (c : Char) (cs : List Char) (h : c.isDigit = true) :
    parseJVal (fuel + 1) (c :: cs)
      = (match takeDigits (c :: cs) with
         | (ds, r) => some (.int ((digitsVal ds 0 : Int)), r)) := by
  obtain ⟨hws, _, _, _, ⟨hq, hbk, hbc⟩, ⟨hm, hn⟩, hf, ht⟩ := digit_is_not c h
  rw [parseJVal.eq_def]
  simp only [skipJsonWs_cons c cs hws]
  simp only [if_neg hn, if_neg ht, if_neg hf, if_neg hq, if_neg hbk, if_neg hbc, if_neg hm,
    if_pos h]

theorem parseJVal_int (fuel : Nat) (i : Int) (rest : List Char)
    (hrest : noDigitHead rest = true) :
    parseJVal (fuel + 1) (intChars i ++ rest) = some (.int i, rest) := by
  by_cases hneg : i < 0
  · have harg : intChars i ++ rest = '-' :: (natDigits i.natAbs ++ rest) := by
      simp [intChars, hneg]
    have hstep : parseJVal (fuel + 1) ('-' :: (natDigits i.natAbs ++ rest))
        = (match takeDigits (natDigits i.natAbs ++ rest) with
           | ([], _) => none
           | (ds, r) => some (.int (-(digitsVal ds 0 : Int)), r)) := rfl
    rw [harg, hstep, takeDigits_run _ (natDigits_digits _) rest hrest]
    obtain ⟨c, t, hct, _⟩ := natDigits_head i.natAbs
    rw [hct]
    show some (PyVal.int (-(digitsVal (c :: t) 0 : Int)), rest) = some (.int i, rest)
    rw [← hct, digitsVal_natDigits]
    have hval : -((i.natAbs : Int)) = i := by omega
    rw [hval]
  · have harg : intChars i ++ rest = natDigits i.toNat ++ rest := by
      simp [intChars, hneg]
    obtain ⟨c, t, hct, hc⟩ := natDigits_head i.toNat
    rw [harg, hct, List.cons_append, parseJVal_digit fuel c _ hc]
    have hrun : takeDigits (c :: (t ++ rest)) = (c :: t, rest) := by
      rw [← List.cons_append, ← hct]
      exact takeDigits_run _ (natDigits_digits _) rest hrest
    rw [hrun]
    show some (PyVal.int ((digitsVal (c :: t) 0 : Int)), rest) = some (.int i, rest)
    rw [← hct, digitsVal_natDigits]
    have hval : ((i.toNat : Int)) = i := by omega
    rw [hval]

/-! The round-trip for the whole fragment `dumps` emits, by induction on the
decoder fuel. -/

theorem roundtrip_go : ∀ fuel : Nat,
    (∀ v rest, serializable v = true → (dumpVal v).length < fuel → noDigitHead rest = true →
      parseJVal fuel (dumpVal v ++ rest) = some (v, rest))
    ∧ (∀ x xs rest, serializableElems (x :: xs) = true →
        (dumpElems (x :: xs)).length + 1 < fuel →
        parseJElems fuel (dumpElems (x :: xs) ++ ']' :: rest) = some (x :: xs, rest))
    ∧ (∀ k w ms rest, serializableMembers ((k, w) :: ms) = true →
        (dumpMembers ((k, w) :: ms)).length + 1 < fuel →
        parseJMembers fuel (dumpMembers ((k, w) :: ms) ++ rbrace :: rest)
          = some ((k, w) :: ms, rest)) := by
  intro fuel
  induction fuel with
  | zero =>
      refine ⟨fun v rest _ hlen _ => ?_, fun x xs rest _ hlen => ?_, fun k w ms rest _ hlen => ?_⟩
        <;> omega
  | succ f ih =>
      obtain ⟨ihv, ihe, ihm⟩ := ih
      refine ⟨?_, ?_, ?_⟩
      · -- values
        intro v rest hs hlen hrest
        cases v with
        | null => rfl
        | bool b => cases b <;> rfl
        | notSerializable tag => exact absurd hs (by simp [serializable])
        | int i => exact parseJVal_int f i rest hrest
        | str s =>
            have harg : dumpVal (.str s) ++ rest = '"' :: (escapeChars s.data ++ '"' :: rest) := by
              simp [dumpVal]
            rw [harg]
            have hstep : parseJVal (f + 1) ('"' :: (escapeChars s.data ++ '"' :: rest))
                = (parseJStrFull (escapeChars s.data ++ '"' :: rest)).map
                    fun p => (.str (String.mk p.1), p.2) := rfl
            rw [hstep, parseJStrFull_escapeChars]
            simp [string_mk_data]
        | arr xs =>
            cases xs with
            | nil => rfl
            | cons x xs2 =>
                have hsx : serializableElems (x :: xs2) = true := by
                  simpa [serializable] using hs
                have hsx1 : serializable x = true := by
                  simp [serializableElems, Bool.and_eq_true] at hsx
                  exact hsx.1
                have harg : dumpVal (.arr (x :: xs2)) ++ rest
                    = '[' :: (dumpElems (x :: xs2) ++ ']' :: rest) := by
                  simp [dumpVal]
                rw [harg]
                have hstep : parseJVal (f + 1) ('[' :: (dumpElems (x :: xs2) ++ ']' :: rest))
                    = (match skipJsonWs (dumpElems (x :: xs2) ++ ']' :: rest) with
                       | [] => none
                       | d :: cs2 =>
                           if d = ']' then some (.arr [], cs2)
                           else (parseJElems f (d :: cs2)).map fun p => (.arr p.1, p.2)) := rfl
                rw [hstep]
                obtain ⟨c, t, hct, hws, hrb, _⟩ := dumpElems_cons_shape x xs2 hsx1
                rw [hct, List.cons_append, skipJsonWs_cons _ _ hws]
                show (if c = ']' then some (PyVal.arr [], t ++ ']' :: rest)
                    else (parseJElems f (c :: (t ++ ']' :: rest))).map
                      fun p => (PyVal.arr p.1, p.2))
                  = some (PyVal.arr (x :: xs2), rest)
                rw [if_neg hrb, ← List.cons_append, ← hct]
                have hbound : (dumpElems (x :: xs2)).length + 1 < f := by
                  simp only [dumpVal, List.length_cons, List.length_append,
                    List.length_singleton] at hlen
                  omega
                rw [ihe x xs2 rest hsx hbound]
                rfl
        | obj ms =>
            cases ms with
            | nil => rfl
            | cons m ms2 =>
                obtain ⟨k, w⟩ := m
                have hsm : serializableMembers ((k, w) :: ms2) = true := by
                  simpa [serializable] using hs
                have harg : dumpVal (.obj ((k, w) :: ms2)) ++ rest
                    = lbrace :: (dumpMembers ((k, w) :: ms2) ++ rbrace :: rest) := by
                  simp [dumpVal]
                rw [harg]
                have hstep : parseJVal (f + 1)
                      (lbrace :: (dumpMembers ((k, w) :: ms2) ++ rbrace :: rest))
                    = (match skipJsonWs (dumpMembers ((k, w) :: ms2) ++ rbrace :: rest) with
                       | [] => none
                       | d :: cs2 =>
                           if d = rbrace then some (.obj [], cs2)
                           else (parseJMembers f (d :: cs2)).map fun p => (.obj p.1, p.2)) := rfl
                rw [hstep]
                obtain ⟨t, hct⟩ := dumpMembers_cons_shape k w ms2
                rw [hct, List.cons_append, skipJsonWs_cons _ _ (by decide)]
                show (parseJMembers f ('"' :: (t ++ rbrace :: rest))).map
                    (fun p => (PyVal.obj p.1, p.2))
                  = some (PyVal.obj ((k, w) :: ms2), rest)
                rw [← List.cons_append, ← hct]
                have hbound : (dumpMembers ((k, w) :: ms2)).length + 1 < f := by
                  simp only [dumpVal, List.length_cons, List.length_append,
                    List.length_singleton] at hlen
                  omega
                rw [ihm k w ms2 rest hsm hbound]
                rfl
      · -- array elements
        intro x xs rest hs hlen
        have hsx1 : serializable x = true := by
          simp [serializableElems, Bool.and_eq_true] at hs
          exact hs.1
        have hstep : ∀ cs, parseJElems (f + 1) cs
            = (match parseJVal f cs with
               | none => none
               | some (v, r) =>
                   match skipJsonWs r with
                   | [] => none
                   | c :: r2 =>
                       if c = ',' then
                         (parseJElems f (skipJsonWs r2)).map fun p => (v :: p.1, p.2)
                       else if c = ']' then some ([v], r2)
                       else none) := fun cs => rfl
        cases xs with
        | nil =>
            have hb : (dumpVal x).length < f := by
              simp only [dumpElems] at hlen
              omega
            rw [show dumpElems [x] = dumpVal x from rfl, hstep,
              ihv x (']' :: rest) hsx1 hb rfl]
            rfl
        | cons y ys =>
            have hsy : serializableElems (y :: ys) = true := by
              simp [serializableElems, Bool.and_eq_true] at hs ⊢
              exact ⟨hs.2.1, hs.2.2⟩
            have hsy1 : serializable y = true := by
              simp [serializableElems, Bool.and_eq_true] at hsy
              exact hsy.1
            have hlens : (dumpVal x).length + 2 + (dumpElems (y :: ys)).length
                = (dumpElems (x :: y :: ys)).length := by
              simp [dumpElems, List.length_append]
              omega
            have harg : dumpElems (x :: y :: ys) ++ ']' :: rest
                = dumpVal x ++ (',' :: ' ' :: (dumpElems (y :: ys) ++ ']' :: rest)) := by
              simp [dumpElems]
            rw [harg, hstep,
              ihv x (',' :: ' ' :: (dumpElems (y :: ys) ++ ']' :: rest)) hsx1
                (by omega) rfl]
            show (parseJElems f (skipJsonWs (' ' :: (dumpElems (y :: ys) ++ ']' :: rest)))).map
                (fun p => (x :: p.1, p.2)) = some (x :: y :: ys, rest)
            have hskip : skipJsonWs (' ' :: (dumpElems (y :: ys) ++ ']' :: rest))
                = dumpElems (y :: ys) ++ ']' :: rest := by
              obtain ⟨c, t, hct, hws, _, _⟩ := dumpElems_cons_shape y ys hsy1
              rw [show skipJsonWs (' ' :: (dumpElems (y :: ys) ++ ']' :: rest))
                  = skipJsonWs (dumpElems (y :: ys) ++ ']' :: rest) from by
                simp [skipJsonWs, jsonWs]]
              rw [hct, List.cons_append, skipJsonWs_cons _ _ hws]
            rw [hskip, ihe y ys rest hsy (by omega)]
            rfl
      · -- object members
        intro k w ms rest hs hlen
        have hsw : serializable w = true := by
          simp [serializableMembers, Bool.and_eq_true] at hs
          exact hs.1
        have hstep : ∀ cs, parseJMembers (f + 1) cs
            = (match skipJsonWs cs with
               | [] => none
               | c :: r0 =>
                   if c = '"' then
                     match parseJStrFull r0 with
                     | none => none
                     | some (kcs, r1) =>
                         match skipJsonWs r1 with
                         | [] => none
                         | d :: r2 =>
                             if d = ':' then
                               match parseJVal f (skipJsonWs r2) with
                               | none => none
                               | some (v, r3) =>
                                   match skipJsonWs r3 with
                                   | [] => none
                                   | e :: r4 =>
                                       if e = ',' then
                                         (parseJMembers f (skipJsonWs r4)).map
                                           fun p => ((String.mk kcs, v) :: p.1, p.2)
                                       else if e = rbrace then
                                         some ([(String.mk kcs, v)], r4)
                                       else none
                             else none
                   else none) := fun cs => rfl
        cases ms with
        | nil =>
            have harg : dumpMembers [(k, w)] ++ rbrace :: rest
                = '"' :: (escapeChars k.data
                    ++ '"' :: (':' :: ' ' :: (dumpVal w ++ rbrace :: rest))) := by
              simp [dumpMembers]
            have hb : (dumpVal w).length < f := by
              simp only [dumpMembers, List.length_cons, List.length_append] at hlen
              omega
            rw [harg, hstep]
            show (match parseJStrFull (escapeChars k.data
                ++ '"' :: (':' :: ' ' :: (dumpVal w ++ rbrace :: rest))) with
              | none => none
              | some (kcs, r1) =>
                  match skipJsonWs r1 with
                  | [] => none
                  | d :: r2 =>
                      if d = ':' then
                        match parseJVal f (skipJsonWs r2) with
                        | none => none
                        | some (v, r3) =>
                            match skipJsonWs r3 with
                            | [] => none
                            | e :: r4 =>
                                if e = ',' then
                                  (parseJMembers f (skipJsonWs r4)).map
                                    fun p => ((String.mk kcs, v) :: p.1, p.2)
                                else if e = rbrace then some ([(String.mk kcs, v)], r4)
                                else none
                      else none) = some ([(k, w)], rest)
            rw [parseJStrFull_escapeChars]
            show (match parseJVal f (skipJsonWs (' ' :: (dumpVal w ++ rbrace :: rest))) with
              | none => none
              | some (v, r3) =>
                  match skipJsonWs r3 with
                  | [] => none
                  | e :: r4 =>
                      if e = ',' then
                        (parseJMembers f (skipJsonWs r4)).map
                          fun p => ((String.mk k.data, v) :: p.1, p.2)
                      else if e = rbrace then some ([(String.mk k.data, v)], r4)
                      else none) = some ([(k, w)], rest)
            have hskip : skipJsonWs (' ' :: (dumpVal w ++ rbrace :: rest))
                = dumpVal w ++ rbrace :: rest := by
              obtain ⟨c, t, hct, hws, _, _⟩ := dumpVal_head w hsw
              rw [show skipJsonWs (' ' :: (dumpVal w ++ rbrace :: rest))
                  = skipJsonWs (dumpVal w ++ rbrace :: rest) from by simp [skipJsonWs, jsonWs]]
              rw [hct, List.cons_append, skipJsonWs_cons _ _ hws]
            rw [hskip, ihv w (rbrace :: rest) hsw hb rfl]
            show some ([(String.mk k.data, w)], rest) = some ([(k, w)], rest)
            rw [string_mk_data]
        | cons m ms2 =>
            obtain ⟨k2, w2⟩ := m
            have hsm2 : serializableMembers ((k2, w2) :: ms2) = true := by
              simp [serializableMembers, Bool.and_eq_true] at hs ⊢
              exact ⟨hs.2.1, hs.2.2⟩
            have harg : dumpMembers ((k, w) :: (k2, w2) :: ms2) ++ rbrace :: rest
                = '"' :: (escapeChars k.data ++ '"' :: (':' :: ' ' :: (dumpVal w
                    ++ ',' :: ' ' :: (dumpMembers ((k2, w2) :: ms2) ++ rbrace :: rest)))) := by
              simp [dumpMembers]
            have hb : (dumpVal w).length < f := by
              simp only [dumpMembers, List.length_cons, List.length_append] at hlen
              omega
            have hbm : (dumpMembers ((k2, w2) :: ms2)).length + 1 < f := by
              simp only [dumpMembers, List.length_cons, List.length_append] at hlen
              omega
            rw [harg, hstep]
            show (match parseJStrFull (escapeChars k.data ++ '"' :: (':' :: ' ' :: (dumpVal w
                ++ ',' :: ' ' :: (dumpMembers ((k2, w2) :: ms2) ++ rbrace :: rest)))) with
              | none => none
              | some (kcs, r1) =>
                  match skipJsonWs r1 with
                  | [] => none
                  | d :: r2 =>
                      if d = ':' then
                        match parseJVal f (skipJsonWs r2) with
                        | none => none
                        | some (v, r3) =>
                            match skipJsonWs r3 with
                            | [] => none
                            | e :: r4 =>
                                if e = ',' then
                                  (parseJMembers f (skipJsonWs r4)).map
                                    fun p => ((String.mk kcs, v) :: p.1, p.2)
                                else if e = rbrace then some ([(String.mk kcs, v)], r4)
                                else none
                      else none) = some ((k, w) :: (k2, w2) :: ms2, rest)
            rw [parseJStrFull_escapeChars]
            show (match parseJVal f (skipJsonWs (' ' :: (dumpVal w
                ++ ',' :: ' ' :: (dumpMembers ((k2, w2) :: ms2) ++ rbrace :: rest)))) with
              | none => none
              | some (v, r3) =>
                  match skipJsonWs r3 with
                  | [] => none
                  | e :: r4 =>
                      if e = ',' then
                        (parseJMembers f (skipJsonWs r4)).map
                          fun p => ((String.mk k.data, v) :: p.1, p.2)
                      else if e = rbrace then some ([(String.mk k.data, v)], r4)
                      else none) = some ((k, w) :: (k2, w2) :: ms2, rest)
            have hskip : skipJsonWs (' ' :: (dumpVal w
                ++ ',' :: ' ' :: (dumpMembers ((k2, w2) :: ms2) ++ rbrace :: rest)))
                = dumpVal w ++ ',' :: ' ' :: (dumpMembers ((k2, w2) :: ms2) ++ rbrace :: rest) := by
              obtain ⟨c, t, hct, hws, _, _⟩ := dumpVal_head w hsw
              rw [show skipJsonWs (' ' :: (dumpVal w
                    ++ ',' :: ' ' :: (dumpMembers ((k2, w2) :: ms2) ++ rbrace :: rest)))
                  = skipJsonWs (dumpVal w
                    ++ ',' :: ' ' :: (dumpMembers ((k2, w2) :: ms2) ++ rbrace :: rest)) from by
                simp [skipJsonWs, jsonWs]]
              rw [hct, List.cons_append, skipJsonWs_cons _ _ hws]
            rw [hskip,
              ihv w (',' :: ' ' :: (dumpMembers ((k2, w2) :: ms2) ++ rbrace :: rest)) hsw hb
                rfl]
            show (parseJMembers f
                (skipJsonWs (' ' :: (dumpMembers ((k2, w2) :: ms2) ++ rbrace :: rest)))).map
                  (fun p => ((String.mk k.data, w) :: p.1, p.2))
              = some ((k, w) :: (k2, w2) :: ms2, rest)
            have hskip2 : skipJsonWs (' ' :: (dumpMembers ((k2, w2) :: ms2) ++ rbrace :: rest))
                = dumpMembers ((k2, w2) :: ms2) ++ rbrace :: rest := by
              obtain ⟨t2, hct2⟩ := dumpMembers_cons_shape k2 w2 ms2
              rw [show skipJsonWs (' ' :: (dumpMembers ((k2, w2) :: ms2) ++ rbrace :: rest))
                  = skipJsonWs (dumpMembers ((k2, w2) :: ms2) ++ rbrace :: rest) from by
                simp [skipJsonWs, jsonWs]]
              rw [hct2, List.cons_append, skipJsonWs_cons _ _ (by decide)]
            rw [hskip2, ihm k2 w2 ms2 rest hsm2 hbm]
            simp [string_mk_data]

/-! UUID string lemmas: shape validity and injectivity of `uuid4String`. -/

theorem hexPad_length (w : Nat) : ∀ n, (hexPad w n).length = w := by
  induction w with
  | zero => intro n; rfl
  | succ w ih => intro n; simp [hexPad, ih]

theorem hexDigitChar_lowerHex (n : Nat) : lowerHexDigit (hexDigitChar n) = true := by
  by_cases h : n < 16
  · interval_cases n <;> decide
  · rw [hexDigitChar, if_neg (by omega), if_neg h]
    decide

theorem hexPad_lowerHex (w : Nat) : ∀ n, ∀ c ∈ hexPad w n, lowerHexDigit c = true := by
  induction w with
  | zero => intro n c hc; simp [hexPad] at hc
  | succ w ih =>
      intro n c hc
      rw [hexPad] at hc
      rcases List.mem_append.mp hc with h1 | h2
      · exact ih (n / 16) c h1
      · rw [List.mem_singleton] at h2
        subst h2
        exact hexDigitChar_lowerHex _

theorem lowerHex_ne_dash (c : Char) (h : lowerHexDigit c = true) : c ≠ '-' := by
  intro heq
  rw [heq] at h
  exact absurd h (by decide)

theorem hexRunVal_append (ds1 : List Char) :
    ∀ ds2 a, hexRunVal (ds1 ++ ds2) a = hexRunVal ds2 (hexRunVal ds1 a) := by
  induction ds1 with
  | nil => intro ds2 a; rfl
  | cons c cs ih => intro ds2 a; simp [hexRunVal, ih]

theorem hexPad_decode (w : Nat) :
    ∀ n a, hexRunVal (hexPad w n) a = a * 16 ^ w + n % 16 ^ w := by
  induction w with
  | zero => intro n a; simp [hexPad, hexRunVal, Nat.mod_one]
  | succ w ih =>
      intro n a
      rw [hexPad, hexRunVal_append, ih (n / 16) a]
      show hexRunVal [hexDigitChar (n % 16)] (a * 16 ^ w + n / 16 % 16 ^ w)
          = a * 16 ^ (w + 1) + n % 16 ^ (w + 1)
      have hv : (hexCharVal (hexDigitChar (n % 16))).getD 0 = n % 16 := by
        rw [hexCharVal_hexDigitChar _ (Nat.mod_lt _ (by omega))]
        rfl
      simp only [hexRunVal, hv]
      have hsplit : n % 16 ^ (w + 1) = n % 16 + 16 * (n / 16 % 16 ^ w) := by
        rw [pow_succ, Nat.mul_comm (16 ^ w) 16, Nat.mod_mul]
      rw [hsplit, pow_succ]
      ring

theorem hexPad_inj (w n1 n2 : Nat) (h1 : n1 < 16 ^ w) (h2 : n2 < 16 ^ w)
    (heq : hexPad w n1 = hexPad w n2) : n1 = n2 := by
  have hd : hexRunVal (hexPad w n1) 0 = hexRunVal (hexPad w n2) 0 := by rw [heq]
  rw [hexPad_decode w n1 0, hexPad_decode w n2 0, Nat.mod_eq_of_lt h1, Nat.mod_eq_of_lt h2]
    at hd
  omega

theorem splitDash_nodash (g : List Char) (h : ∀ c ∈ g, c ≠ '-') : splitDash g = [g] := by
  induction g with
  | nil => rfl
  | cons c cs ih =>
      have hc : c ≠ '-' := h c (List.mem_cons_self c cs)
      rw [splitDash, if_neg hc, ih (fun x hx => h x (List.mem_cons_of_mem c hx))]

theorem splitDash_append (g rest : List Char) (h : ∀ c ∈ g, c ≠ '-') :
    splitDash (g ++ '-' :: rest) = g :: splitDash rest := by
  induction g with
  | nil => simp [splitDash]
  | cons c cs ih =>
      have hc : c ≠ '-' := h c (List.mem_cons_self c cs)
      rw [List.cons_append, splitDash, if_neg hc,
        ih (fun x hx => h x (List.mem_cons_of_mem c hx))]

theorem uuid4String_split (r : Nat) :
    splitDash (uuid4String r).data
      = [hexPad 8 (r / 2 ^ 90), hexPad 4 (r / 2 ^ 74 % 2 ^ 16),
         hexPad 4 (16384 + r / 2 ^ 62 % 2 ^ 12), hexPad 4 (32768 + r / 2 ^ 48 % 2 ^ 14),
         hexPad 12 (r % 2 ^ 48)] := by
  have hx : ∀ w n, ∀ c ∈ hexPad w n, c ≠ '-' :=
    fun w n c hc => lowerHex_ne_dash c (hexPad_lowerHex w n c hc)
  show splitDash (hexPad 8 (r / 2 ^ 90) ++ '-' ::
      (hexPad 4 (r / 2 ^ 74 % 2 ^ 16) ++ '-' ::
        (hexPad 4 (16384 + r / 2 ^ 62 % 2 ^ 12) ++ '-' ::
          (hexPad 4 (32768 + r / 2 ^ 48 % 2 ^ 14) ++ '-' ::
            hexPad 12 (r % 2 ^ 48))))) = _
  rw [splitDash_append _ _ (hx _ _), splitDash_append _ _ (hx _ _),
    splitDash_append _ _ (hx _ _), splitDash_append _ _ (hx _ _),
    splitDash_nodash _ (hx _ _)]

theorem uuid4String_valid (r : Nat) : isValidUuidStr (uuid4String r) = true := by
  rw [isValidUuidStr.eq_def, uuid4String_split r]
  show (decide ((hexPad 8 (r / 2 ^ 90)).length = 8)
      && decide ((hexPad 4 (r / 2 ^ 74 % 2 ^ 16)).length = 4)
      && decide ((hexPad 4 (16384 + r / 2 ^ 62 % 2 ^ 12)).length = 4)
      && decide ((hexPad 4 (32768 + r / 2 ^ 48 % 2 ^ 14)).length = 4)
      && decide ((hexPad 12 (r % 2 ^ 48)).length = 12)
      && (hexPad 8 (r / 2 ^ 90) ++ (hexPad 4 (r / 2 ^ 74 % 2 ^ 16)
          ++ (hexPad 4 (16384 + r / 2 ^ 62 % 2 ^ 12)
            ++ (hexPad 4 (32768 + r / 2 ^ 48 % 2 ^ 14)
              ++ hexPad 12 (r % 2 ^ 48))))).all lowerHexDigit) = true
  simp only [hexPad_length, decide_True, Bool.true_and, List.all_eq_true]
  intro c hc
  simp only [List.mem_append] at hc
  rcases hc with h | h | h | h | h <;> exact hexPad_lowerHex _ _ c h

theorem uuid4String_inj (r1 r2 : Nat) (h1 : r1 < 2 ^ 122) (h2 : r2 < 2 ^ 122)
    (heq : uuid4String r1 = uuid4String r2) : r1 = r2 := by
  have hsplit : splitDash (uuid4String r1).data = splitDash (uuid4String r2).data := by
    rw [heq]
  rw [uuid4String_split r1, uuid4String_split r2] at hsplit
  simp only [List.cons.injEq, and_true] at hsplit
  obtain ⟨e1, e2, e3, e4, e5⟩ := hsplit
  have k1 : r1 / 2 ^ 90 = r2 / 2 ^ 90 := by
    refine hexPad_inj 8 _ _ ?_ ?_ e1 <;>
      exact Nat.div_lt_of_lt_mul (by norm_num at *; omega)
  have k2 : r1 / 2 ^ 74 % 2 ^ 16 = r2 / 2 ^ 74 % 2 ^ 16 :=
    hexPad_inj 4 _ _ (by norm_num [Nat.mod_lt]) (by norm_num [Nat.mod_lt]) e2
  have k3 : r1 / 2 ^ 62 % 2 ^ 12 = r2 / 2 ^ 62 % 2 ^ 12 := by
    have := hexPad_inj 4 _ _
      (by have := Nat.mod_lt (r1 / 2 ^ 62) (y := 2 ^ 12) (by norm_num); norm_num at *; omega)
      (by have := Nat.mod_lt (r2 / 2 ^ 62) (y := 2 ^ 12) (by norm_num); norm_num at *; omega) e3
    omega
  have k4 : r1 / 2 ^ 48 % 2 ^ 14 = r2 / 2 ^ 48 % 2 ^ 14 := by
    have := hexPad_inj 4 _ _
      (by have := Nat.mod_lt (r1 / 2 ^ 48) (y := 2 ^ 14) (by norm_num); norm_num at *; omega)
      (by have := Nat.mod_lt (r2 / 2 ^ 48) (y := 2 ^ 14) (by norm_num); norm_num at *; omega) e4
    omega
  have k5 : r1 % 2 ^ 48 = r2 % 2 ^ 48 :=
    hexPad_inj 12 _ _ (by norm_num [Nat.mod_lt]) (by norm_num [Nat.mod_lt]) e5
  have hrec : ∀ r : Nat, r = r / 2 ^ 90 * 2 ^ 90 + (r / 2 ^ 74 % 2 ^ 16) * 2 ^ 74
      + (r / 2 ^ 62 % 2 ^ 12) * 2 ^ 62 + (r / 2 ^ 48 % 2 ^ 14) * 2 ^ 48 + r % 2 ^ 48 := by
    intro r
    have s74 : 2 ^ 90 = 2 ^ 74 * 2 ^ 16 := by norm_num
    have s62 : 2 ^ 74 = 2 ^ 62 * 2 ^ 12 := by norm_num
    have s48 : 2 ^ 62 = 2 ^ 48 * 2 ^ 14 := by norm_num
    have d74 : r / 2 ^ 90 = r / 2 ^ 74 / 2 ^ 16 := by rw [s74, Nat.div_div_eq_div_mul]
    have d62 : r / 2 ^ 74 = r / 2 ^ 62 / 2 ^ 12 := by rw [s62, Nat.div_div_eq_div_mul]
    have d48 : r / 2 ^ 62 = r / 2 ^ 48 / 2 ^ 14 := by rw [s48, Nat.div_div_eq_div_mul]
    have m16 := Nat.div_add_mod (r / 2 ^ 74) (2 ^ 16)
    have m12 := Nat.div_add_mod (r / 2 ^ 62) (2 ^ 12)
    have m14 := Nat.div_add_mod (r / 2 ^ 48) (2 ^ 14)
    have m48 := Nat.div_add_mod r (2 ^ 48)
    calc r = 2 ^ 48 * (r / 2 ^ 48) + r % 2 ^ 48 := m48.symm
    _ = 2 ^ 48 * (2 ^ 14 * (r / 2 ^ 48 / 2 ^ 14) + r / 2 ^ 48 % 2 ^ 14) + r % 2 ^ 48 := by
        rw [m14]
    _ = 2 ^ 48 * (2 ^ 14 * (2 ^ 12 * (r / 2 ^ 62 / 2 ^ 12) + r / 2 ^ 62 % 2 ^ 12)
          + r / 2 ^ 48 % 2 ^ 14) + r % 2 ^ 48 := by rw [← d48, m12]
    _ = 2 ^ 48 * (2 ^ 14 * (2 ^ 12 * (2 ^ 16 * (r / 2 ^ 74 / 2 ^ 16) + r / 2 ^ 74 % 2 ^ 16)
          + r / 2 ^ 62 % 2 ^ 12) + r / 2 ^ 48 % 2 ^ 14) + r % 2 ^ 48 := by rw [← d62, m16]
    _ = r / 2 ^ 90 * 2 ^ 90 + (r / 2 ^ 74 % 2 ^ 16) * 2 ^ 74 + (r / 2 ^ 62 % 2 ^ 12) * 2 ^ 62
          + (r / 2 ^ 48 % 2 ^ 14) * 2 ^ 48 + r % 2 ^ 48 := by
        rw [← d74]
        ring
  rw [hrec r1, hrec r2, k1, k2, k3, k4, k5]

/-- The body round-trip: decoding the serialized form of any serializable
payload recovers the payload exactly. -/
theorem loads_dumps (v : PyVal) (hs : serializable v = true) : loads (dumps v) = some v := by
  have hv := (roundtrip_go ((dumpVal v).length + 1)).1 v [] hs (by omega) (by decide)
  rw [List.append_nil] at hv
  show (match parseJVal ((dumps v).length + 1) (dumps v).data with
    | some (w, rest) => if skipJsonWs rest = [] then some w else none
    | none => none) = some v
  have hlen : (dumps v).length = (dumpVal v).length := rfl
  have hdata : (dumps v).data = dumpVal v := rfl
  rw [hlen, hdata, hv]
  rfl

/-! Claim theorems. -/

/-- C1: a token credential is never presented after its 30-minute
time-to-live: on every call, if the cached issue timestamp is older than
`now - TOKEN_TTL` (or nothing is cached) `get_header` regenerates before
returning, so the header it returns always carries an issue timestamp at
most `TOKEN_TTL` old; well-formed provider states stay well formed. -/
theorem apns_c1 (p : JWTAuthorizationHeaderProvider) (now : Int) (hwf : p.wellFormed) :
    now - ((p.get_header now).1.token.iat) ≤ JWTAuthorizationHeaderProvider.TOKEN_TTL
    ∧ (p.regenerates now = true ↔
        (p.cached = none ∨ ∃ iat h, p.cached = some (iat, h)
          ∧ iat < now - JWTAuthorizationHeaderProvider.TOKEN_TTL))
    ∧ (p.get_header now).2.wellFormed := by
  match hc : p.cached with
  | none =>
      refine ⟨?_, ?_, ?_⟩
      · simp only [JWTAuthorizationHeaderProvider.get_header, hc, jwtEncode]
        simp [JWTAuthorizationHeaderProvider.TOKEN_TTL]
      · simp [JWTAuthorizationHeaderProvider.regenerates, hc]
      · simp only [JWTAuthorizationHeaderProvider.get_header, hc]
        intro iat h hh
        simp only [Option.some.injEq, Prod.mk.injEq] at hh
        rw [← hh.2, ← hh.1]
        rfl
  | some (iat0, h0) =>
      have hiw : h0.token.iat = iat0 := hwf iat0 h0 hc
      by_cases hstale : iat0 < now - JWTAuthorizationHeaderProvider.TOKEN_TTL
      · refine ⟨?_, ?_, ?_⟩
        · simp only [JWTAuthorizationHeaderProvider.get_header, hc, if_pos hstale, jwtEncode]
          simp [JWTAuthorizationHeaderProvider.TOKEN_TTL]
        · simp only [JWTAuthorizationHeaderProvider.regenerates, hc, decide_eq_true_eq]
          exact ⟨fun _ => Or.inr ⟨iat0, h0, rfl, hstale⟩, fun _ => hstale⟩
        · simp only [JWTAuthorizationHeaderProvider.get_header, hc, if_pos hstale]
          intro iat h hh
          simp only [Option.some.injEq, Prod.mk.injEq] at hh
          rw [← hh.2, ← hh.1]
          rfl
      · refine ⟨?_, ?_, ?_⟩
        · simp only [JWTAuthorizationHeaderProvider.get_header, hc, if_neg hstale, hiw]
          omega
        · simp only [JWTAuthorizationHeaderProvider.regenerates, hc, decide_eq_true_eq]
          constructor
          · intro hlt; exact absurd hlt hstale
          · rintro (hnone | ⟨iat, h, heq, hlt⟩)
            · exact absurd hnone (by simp)
            · simp only [Option.some.injEq, Prod.mk.injEq] at heq
              omega
        · simp only [JWTAuthorizationHeaderProvider.get_header, hc, if_neg hstale]
          intro iat h hh
          exact hwf iat h hh

/-- C1 witness: the theorem applied to a freshly constructed provider at
time 5. -/
theorem apns_c1_witness :
    (5 : Int) - (((JWTAuthorizationHeaderProvider.init ("K") ("D") ("T")).get_header 5).1.token.iat)
      ≤ JWTAuthorizationHeaderProvider.TOKEN_TTL := by
  have h := apns_c1 (JWTAuthorizationHeaderProvider.init ("K") ("D") ("T")) 5
    (by intro iat hh hc; exact Option.noConfusion hc)
  exact h.1

/-- C4: on one provider instance, a second `get_header` call strictly within
the 30-minute staleness threshold returns the identical header, does not
re-sign, and leaves the cache unchanged; a second call strictly after the
threshold re-signs, and the embedded issued-at timestamp of the new token
differs from the first. -/
theorem apns_c4 (key kid team : String) (t1 t2 t3 t4 : Int)
    (hle : t1 ≤ t2) (hlt : t2 - t1 < JWTAuthorizationHeaderProvider.TOKEN_TTL)
    (hgt : JWTAuthorizationHeaderProvider.TOKEN_TTL < t4 - t3) :
    (((JWTAuthorizationHeaderProvider.init key kid team).get_header t1).2.get_header t2).1
        = ((JWTAuthorizationHeaderProvider.init key kid team).get_header t1).1
    ∧ ((JWTAuthorizationHeaderProvider.init key kid team).get_header t1).2.regenerates t2
        = false
    ∧ (((JWTAuthorizationHeaderProvider.init key kid team).get_header t1).2.get_header t2).2
        = ((JWTAuthorizationHeaderProvider.init key kid team).get_header t1).2
    ∧ ((JWTAuthorizationHeaderProvider.init key kid team).get_header t3).2.regenerates t4
        = true
    ∧ (((JWTAuthorizationHeaderProvider.init key kid team).get_header t3).2.get_header t4).1.token.iat
        = t4
    ∧ ((JWTAuthorizationHeaderProvider.init key kid team).get_header t3).1.token.iat = t3
    ∧ (((JWTAuthorizationHeaderProvider.init key kid team).get_header t3).2.get_header t4).1.token.iat
        ≠ ((JWTAuthorizationHeaderProvider.init key kid team).get_header t3).1.token.iat := by
  have hfresh : ∀ t : Int, (JWTAuthorizationHeaderProvider.init key kid team).get_header t
      = (⟨"bearer", jwtEncode team t key kid⟩,
         { key := key, key_id := kid, team_id := team,
           cached := some (t, ⟨"bearer", jwtEncode team t key kid⟩) }) := by
    intro t
    rfl
  have hnot : ¬(t1 < t2 - JWTAuthorizationHeaderProvider.TOKEN_TTL) := by
    simp only [JWTAuthorizationHeaderProvider.TOKEN_TTL] at hlt ⊢
    omega
  have hyes : t3 < t4 - JWTAuthorizationHeaderProvider.TOKEN_TTL := by
    simp only [JWTAuthorizationHeaderProvider.TOKEN_TTL] at hgt ⊢
    omega
  have hne34 : t4 ≠ t3 := by
    simp only [JWTAuthorizationHeaderProvider.TOKEN_TTL] at hgt
    omega
  refine ⟨?_, ?_, ?_, ?_, ?_, ?_, ?_⟩
  · rw [hfresh t1]
    simp [JWTAuthorizationHeaderProvider.get_header, if_neg hnot]
  · rw [hfresh t1]
    simp [JWTAuthorizationHeaderProvider.regenerates, hnot]
  · rw [hfresh t1]
    simp [JWTAuthorizationHeaderProvider.get_header, if_neg hnot]
  · rw [hfresh t3]
    simp [JWTAuthorizationHeaderProvider.regenerates, hyes]
  · rw [hfresh t3]
    simp [JWTAuthorizationHeaderProvider.get_header, if_pos hyes, jwtEncode]
  · rw [hfresh t3]
    rfl
  · rw [hfresh t3]
    simp [JWTAuthorizationHeaderProvider.get_header, if_pos hyes, jwtEncode]
    exact hne34

/-- C4 witness: the theorem applied at call times 0 and 1 (within the
threshold) and 0 and 1801 (past the threshold). -/
theorem apns_c4_witness :
    (((JWTAuthorizationHeaderProvider.init ("K") ("D") ("T")).get_header 0).2.get_header 1).1
        = ((JWTAuthorizationHeaderProvider.init ("K") ("D") ("T")).get_header 0).1
    ∧ (((JWTAuthorizationHeaderProvider.init ("K") ("D") ("T")).get_header 0).2.get_header
          1801).1.token.iat
        ≠ ((JWTAuthorizationHeaderProvider.init ("K") ("D") ("T")).get_header 0).1.token.iat := by
  have h := apns_c4 ("K") ("D") ("T") 0 1 0 1801 (by decide) (by decide) (by decide)
  exact ⟨h.1, h.2.2.2.2.2.2⟩

/-- C2 counterexample: on one token-based pool, two `send_notification`
calls one second apart (well within the 30-minute staleness threshold)
present different authorization headers, each freshly signed with the call
time as its issued-at claim, refuting that a single pool-scoped provider
serves the cached header to both. -/
theorem apns_c2_counterexample :
    authOf (demoKeyPool.send_notification demoReq 0).1
      = some ⟨"bearer", jwtEncode ("TEAMID") 0 ("PRIVATE-KEY") ("KEYID")⟩
    ∧ authOf (demoKeyPool.send_notification demoReq 1).1
      = some ⟨"bearer", jwtEncode ("TEAMID") 1 ("PRIVATE-KEY") ("KEYID")⟩
    ∧ authOf (demoKeyPool.send_notification demoReq 0).1
      ≠ authOf (demoKeyPool.send_notification demoReq 1).1 := by
  refine ⟨rfl, rfl, ?_⟩
  decide

/-- C2 (amended): every `create_connection` call on a token-based pool (and
hence every send) constructs a fresh Credential Provider with an empty
token cache, so every send signs a new token whose issued-at claim is the
send time; a cached token is only reused within one provider instance. -/
theorem apns_c2 (pool : APNsKeyConnectionPool) (t : Int) (req : NotificationRequest) :
    (pool.create_connection).auth_provider
      = some (JWTAuthorizationHeaderProvider.init pool.key pool.key_id pool.team_id)
    ∧ (JWTAuthorizationHeaderProvider.init pool.key pool.key_id pool.team_id).cached = none
    ∧ (JWTAuthorizationHeaderProvider.init pool.key pool.key_id pool.team_id).regenerates t
      = true
    ∧ ((pool.send_notification req t).2.1).auth_provider
      = some { key := pool.key, key_id := pool.key_id, team_id := pool.team_id,
               cached := some (t, ⟨"bearer", jwtEncode pool.team_id t pool.key pool.key_id⟩) } := by
  refine ⟨rfl, rfl, rfl, ?_⟩
  cases h : dumpsOpt req.message <;>
    simp [APNsKeyConnectionPool.send_notification, APNsBaseClientProtocol.send_notification,
      APNsBaseClientProtocol.buildHeaders, APNsKeyConnectionPool.create_connection,
      APNsBaseClientProtocol.init, JWTAuthorizationHeaderProvider.init,
      JWTAuthorizationHeaderProvider.get_header, h]

/-- C5 counterexample: constructing a certificate pool with the topic
explicitly set to the empty string (a falsy value in Python) does parse the
certificate and replaces the topic by the subject UID, refuting that an
explicitly supplied topic always suppresses parsing and is kept unchanged. -/
theorem apns_c5_counterexample :
    (APNsCertConnectionPool.init demoCert (some "") 10 none false).2 = true
    ∧ (APNsCertConnectionPool.init demoCert (some "") 10 none false).1.base.apns_topic
      = some ("com.example.app")
    ∧ (some ("com.example.app") : Option String) ≠ some "" := by
  refine ⟨rfl, rfl, ?_⟩
  decide

/-- C5 (amended): a certificate pool constructed without a topic, or with
the (falsy) empty-string topic, parses the certificate and derives its
topic from the subject unique identifier; constructed with any nonempty
topic it never parses the certificate for that purpose and keeps the
supplied topic unchanged. -/
theorem apns_c5 (cert : Certificate) (mc : Nat) (mca : Option Nat) (sb : Bool) :
    ((APNsCertConnectionPool.init cert none mc mca sb).1.base.apns_topic = cert.subject_UID
      ∧ (APNsCertConnectionPool.init cert none mc mca sb).2 = true)
    ∧ ((APNsCertConnectionPool.init cert (some "") mc mca sb).1.base.apns_topic
          = cert.subject_UID
      ∧ (APNsCertConnectionPool.init cert (some "") mc mca sb).2 = true)
    ∧ (∀ tp : String, tp ≠ "" →
        (APNsCertConnectionPool.init cert (some tp) mc mca sb).1.base.apns_topic = some tp
        ∧ (APNsCertConnectionPool.init cert (some tp) mc mca sb).2 = false) := by
  refine ⟨⟨?_, ?_⟩, ⟨?_, ?_⟩, ?_⟩
  · simp [APNsCertConnectionPool.init, APNsBaseConnectionPool.init, pyFalsyOptStr]
  · simp [APNsCertConnectionPool.init, APNsBaseConnectionPool.init, pyFalsyOptStr]
  · simp [APNsCertConnectionPool.init, APNsBaseConnectionPool.init, pyFalsyOptStr]
  · simp [APNsCertConnectionPool.init, APNsBaseConnectionPool.init, pyFalsyOptStr]
  · intro tp htp
    constructor
    · simp [APNsCertConnectionPool.init, APNsBaseConnectionPool.init, pyFalsyOptStr, htp]
    · simp [APNsCertConnectionPool.init, APNsBaseConnectionPool.init, pyFalsyOptStr, htp]

/-- C5 witness: the amended theorem applied to the demo certificate and the
nonempty topic string. -/
theorem apns_c5_witness :
    (APNsCertConnectionPool.init demoCert (some ("com.example.topic")) 10 none false).1.base.apns_topic
      = some ("com.example.topic")
    ∧ (APNsCertConnectionPool.init demoCert (some ("com.example.topic")) 10 none false).2
      = false := by
  have h := apns_c5 demoCert 10 none false
  exact h.2.2 ("com.example.topic") (by decide)

/-- C7: a payload that cannot be serialized makes `send_notification` fail
with the serialization error before any transport activity: the outcome is
the error, and no connection is created and nothing is transmitted. -/
theorem apns_c7 (p : APNsBaseClientProtocol) (req : NotificationRequest) (now : Int)
    (hbad : serializable req.message = false) :
    (p.send_notification req now).1 = Except.error serializationFailure
    ∧ (p.send_notification req now).2.2 = []
    ∧ countConnCreated (p.send_notification req now).2.2 = 0 := by
  refine ⟨?_, ?_, ?_⟩ <;>
    simp [APNsBaseClientProtocol.send_notification, dumpsOpt, hbad, countConnCreated]

/-- C7 witness: the theorem applied to the fixture request carrying an
unserializable payload. -/
theorem apns_c7_witness :
    (demoProtocol.send_notification demoBadReq 0).1 = Except.error serializationFailure
    ∧ (demoProtocol.send_notification demoBadReq 0).2.2 = [] := by
  have h := apns_c7 demoProtocol demoBadReq 0 rfl
  exact ⟨h.1, h.2.1⟩

/-- C3: the constructed wire request has method POST and path
`/3/device/<token>`; its headers carry `apns-id` equal to the request
identifier, `apns-topic` equal to the pool's configured topic,
`apns-expiration` equal to `str(now + time_to_live)` exactly when
`time_to_live` is set, `apns-priority` with the stringified priority exactly
when set, `apns-collapse-id` exactly when the collapse key is set,
`apns-push-type` with the enum's string tag exactly when set, and an
`authorization` header exactly when a credential provider is present. -/
theorem apns_c3 (p : APNsBaseClientProtocol) (req : NotificationRequest) (now : Int) :
    (p.buildHeaders req now).1.apns_id = req.notification_id
    ∧ (p.buildHeaders req now).1.apns_topic = p.apns_topic
    ∧ (∀ ttl, req.time_to_live = some ttl →
        (p.buildHeaders req now).1.apns_expiration = some (String.mk (intChars (now + ttl))))
    ∧ ((p.buildHeaders req now).1.apns_expiration.isSome = req.time_to_live.isSome)
    ∧ (∀ pr, req.priority = some pr →
        (p.buildHeaders req now).1.apns_priority = some (pyStrOfStr pr))
    ∧ ((p.buildHeaders req now).1.apns_priority.isSome = req.priority.isSome)
    ∧ (∀ ck, req.collapse_key = some ck →
        (p.buildHeaders req now).1.apns_collapse_id = some ck)
    ∧ ((p.buildHeaders req now).1.apns_collapse_id.isSome = req.collapse_key.isSome)
    ∧ (∀ pt, req.push_type = some pt →
        (p.buildHeaders req now).1.apns_push_type = some pt.value)
    ∧ ((p.buildHeaders req now).1.apns_push_type.isSome = req.push_type.isSome)
    ∧ ((p.buildHeaders req now).1.authorization.isSome = p.auth_provider.isSome)
    ∧ (serializable req.message = true →
        (p.send_notification req now).1
          = Except.ok
              { method := "POST"
                url := "/3/device/" ++ req.device_token
                body := dumps req.message
                headers := (p.buildHeaders req now).1 }) := by
  refine ⟨rfl, ?_, ?_, ?_, ?_, ?_, ?_, ?_, ?_, ?_, ?_, ?_⟩
  · cases p.auth_provider <;> rfl
  · intro ttl httl
    simp [APNsBaseClientProtocol.buildHeaders, httl]
  · simp [APNsBaseClientProtocol.buildHeaders]
  · intro pr hpr
    simp [APNsBaseClientProtocol.buildHeaders, hpr]
  · simp [APNsBaseClientProtocol.buildHeaders]
  · intro ck hck
    simp [APNsBaseClientProtocol.buildHeaders, hck]
  · simp [APNsBaseClientProtocol.buildHeaders]
  · intro pt hpt
    simp [APNsBaseClientProtocol.buildHeaders, hpt]
  · simp [APNsBaseClientProtocol.buildHeaders]
  · cases hp : p.auth_provider <;> simp [APNsBaseClientProtocol.buildHeaders, hp]
  · intro hs
    simp [APNsBaseClientProtocol.send_notification, dumpsOpt, hs]

/-- C3 witness: the theorem applied to the fixture protocol and request at
time 1000: with `time_to_live = 60` the expiration header is the string of
1060, with `priority = None` no priority header is present, and with
`push_type = ALERT` the push-type header is the string alert. -/
theorem apns_c3_witness :
    (demoProtocol.buildHeaders demoReq 1000).1.apns_expiration = some ("1060")
    ∧ (demoProtocol.buildHeaders demoReq 1000).1.apns_priority = none
    ∧ (demoProtocol.buildHeaders demoReq 1000).1.apns_push_type = some ("alert") := by
  have h := apns_c3 demoProtocol demoReq 1000
  refine ⟨?_, ?_, ?_⟩
  · exact h.2.2.1 60 rfl
  · have hp := h.2.2.2.2.2.1
    rw [show demoReq.priority = none from rfl] at hp
    cases hopt : (demoProtocol.buildHeaders demoReq 1000).1.apns_priority with
    | none => rfl
    | some s =>
        rw [hopt] at hp
        simp at hp
  · exact h.2.2.2.2.2.2.2.2.1 .alert rfl

/-- C6: the endpoint variant is fixed at pool construction (development
class when sandboxed, production otherwise) and is passed to every
connection the pool creates; the two classes target distinct fixed hosts,
both use port 443 with SECURE enabled, and the protocol class changes
nothing about the constructed request itself: only the host in the
connection event differs. -/
theorem apns_c6 (topic : Option String) (mc : Nat) (mca : Option Nat)
    (p : APNsBaseClientProtocol) (req : NotificationRequest) (now : Int)
    (kp : APNsKeyConnectionPool) (cp : APNsCertConnectionPool) :
    (APNsBaseConnectionPool.init topic mc mca false).protocolClass = .production
    ∧ (APNsBaseConnectionPool.init topic mc mca true).protocolClass = .development
    ∧ APNS_SERVER .production = "api.push.apple.com"
    ∧ APNS_SERVER .development = "api.development.push.apple.com"
    ∧ APNS_SERVER .production ≠ APNS_SERVER .development
    ∧ (∀ c, APNS_PORT c = 443 ∧ SECURE c = true)
    ∧ (kp.create_connection).protocolClass = kp.base.protocolClass
    ∧ (cp.create_connection).protocolClass = cp.base.protocolClass
    ∧ (({ p with protocolClass := .production }).send_notification req now).1
      = (({ p with protocolClass := .development }).send_notification req now).1
    ∧ (∀ pc : ProtocolClass,
        (({ p with protocolClass := pc }).send_notification req now).2.2
          = match (({ p with protocolClass := pc }).send_notification req now).1 with
            | .ok w => [SendEvent.connCreated (APNS_SERVER pc) 443 true, SendEvent.requested w]
            | .error _ => []) := by
  refine ⟨rfl, rfl, rfl, rfl, by decide, fun c => ⟨rfl, rfl⟩, rfl, rfl, ?_, ?_⟩
  · cases h : dumpsOpt req.message <;> cases hap : p.auth_provider <;>
      simp [APNsBaseClientProtocol.send_notification, APNsBaseClientProtocol.buildHeaders, h,
        hap]
  · intro pc
    cases h : dumpsOpt req.message <;>
      simp [APNsBaseClientProtocol.send_notification, APNsBaseClientProtocol.buildHeaders, h,
        APNS_PORT, SECURE]

/-- C8: for every serializable payload, the transmitted body is the
payload's JSON serialization with non-ASCII characters preserved literally
(every character at or above 0x20 other than quote and backslash is emitted
unescaped), and decoding the body as JSON recovers a value equal to the
original payload. -/
theorem apns_c8 (p : APNsBaseClientProtocol) (req : NotificationRequest) (now : Int)
    (hs : serializable req.message = true) :
    (∃ w, (p.send_notification req now).1 = Except.ok w
      ∧ w.body = dumps req.message
      ∧ loads w.body = some req.message)
    ∧ (∀ c : Char, 32 ≤ c.toNat → c ≠ '"' → c ≠ '\\' → escapeChar c = [c]) := by
  constructor
  · have hsend : (p.send_notification req now).1 = Except.ok
        { method := "POST"
          url := "/3/device/" ++ req.device_token
          body := dumps req.message
          headers := (p.buildHeaders req now).1 } := by
      simp [APNsBaseClientProtocol.send_notification, dumpsOpt, hs]
    exact ⟨_, hsend, rfl, loads_dumps req.message hs⟩
  · intro c hge hq hbs
    have h3 : c ≠ Char.ofNat 8 := fun heq => by rw [heq] at hge; exact absurd hge (by decide)
    have h4 : c ≠ Char.ofNat 9 := fun heq => by rw [heq] at hge; exact absurd hge (by decide)
    have h5 : c ≠ Char.ofNat 10 := fun heq => by rw [heq] at hge; exact absurd hge (by decide)
    have h6 : c ≠ Char.ofNat 12 := fun heq => by rw [heq] at hge; exact absurd hge (by decide)
    have h7 : c ≠ Char.ofNat 13 := fun heq => by rw [heq] at hge; exact absurd hge (by decide)
    simp [escapeChar, hq, hbs, h3, h4, h5, h6, h7]
    omega

/-- C8 witness: the theorem applied to the fixture request carrying the
spec's example payload, plus literal preservation of a non-ASCII letter. -/
theorem apns_c8_witness :
    (∃ w, (demoProtocol.send_notification demoReq 0).1 = Except.ok w
      ∧ w.body = dumps demoReq.message
      ∧ loads w.body = some demoReq.message)
    ∧ escapeChar 'é' = ['é'] := by
  have h := apns_c8 demoProtocol demoReq 0 rfl
  exact ⟨h.1, h.2 'é' (by decide) (by decide) (by decide)⟩

/-- C9 counterexample: constructing a request with the identifier explicitly
supplied as the empty string does not store it unchanged: `"" or
str(uuid4())` is falsy, so a generated UUID is stored instead. -/
theorem apns_c9_counterexample :
    (NotificationRequest.make 0 ("dev") PyVal.null (some "") none none none
        none).notification_id
      = "00000000-0000-4000-8000-000000000000"
    ∧ (NotificationRequest.make 0 ("dev") PyVal.null (some "") none none none
        none).notification_id ≠ "" := by
  refine ⟨rfl, ?_⟩
  decide

/-- C9 (amended): with no identifier, or with the (falsy) empty string
supplied, the stored identifier is the freshly generated `str(uuid4())`
value, which is syntactically a valid UUID and is distinct for distinct
122-bit random draws; any nonempty supplied identifier, and every other
field, is stored unchanged. -/
theorem apns_c9 (r : Nat) (dt : String) (msg : PyVal) (nid : Option String)
    (ttl : Option Int) (pr ck : Option String) (pt : Option PushType) :
    ((nid = none ∨ nid = some "") →
      (NotificationRequest.make r dt msg nid ttl pr ck pt).notification_id = uuid4String r)
    ∧ (∀ s, nid = some s → s ≠ "" →
        (NotificationRequest.make r dt msg nid ttl pr ck pt).notification_id = s)
    ∧ isValidUuidStr (uuid4String r) = true
    ∧ (∀ r2, r < 2 ^ 122 → r2 < 2 ^ 122 → r ≠ r2 → uuid4String r ≠ uuid4String r2)
    ∧ (NotificationRequest.make r dt msg nid ttl pr ck pt).device_token = dt
    ∧ (NotificationRequest.make r dt msg nid ttl pr ck pt).time_to_live = ttl
    ∧ (NotificationRequest.make r dt msg nid ttl pr ck pt).priority = pr
    ∧ (NotificationRequest.make r dt msg nid ttl pr ck pt).collapse_key = ck
    ∧ (NotificationRequest.make r dt msg nid ttl pr ck pt).push_type = pt := by
  refine ⟨?_, ?_, uuid4String_valid r, ?_, rfl, rfl, rfl, rfl, rfl⟩
  · rintro (hn | hn) <;> simp [NotificationRequest.make, pyOrStr, hn]
  · intro s hn hne
    simp [NotificationRequest.make, pyOrStr, hn, hne]
  · intro r2 hb1 hb2 hne heq
    exact hne (uuid4String_inj r r2 hb1 hb2 heq)

/-- C9 witness: the theorem applied with a nonempty supplied identifier
(stored unchanged) and with distinct draws 0 and 1 (distinct UUIDs). -/
theorem apns_c9_witness :
    (NotificationRequest.make 0 ("dev") PyVal.null (some ("my-id")) none none none
        none).notification_id = "my-id"
    ∧ isValidUuidStr (uuid4String 0) = true
    ∧ uuid4String 0 ≠ uuid4String 1 := by
  have h := apns_c9 0 ("dev") PyVal.null (some ("my-id")) none none none none
  refine ⟨h.2.1 ("my-id") rfl (by decide), h.2.2.1, ?_⟩
  exact h.2.2.2.1 1 (by norm_num) (by norm_num) (by norm_num)

/-- C10 counterexample: a `send_notification` call whose payload cannot be
serialized creates no transport connection at all, refuting that every send
creates exactly one. -/
theorem apns_c10_counterexample :
    countConnCreated ((demoKeyPool.send_notification demoBadReq 0).2.2) = 0
    ∧ (0 : Nat) ≠ 1 := by
  refine ⟨rfl, ?_⟩
  decide

/-- C10 (amended): pools are stateless across sends: a sequence of sends is
exactly the independent per-call map and the pool value is never changed;
`connections` is empty at construction and nothing populates it; after any
send the protocol's `requests`, `request_streams` and `request_statuses`
containers are empty; a send creates exactly one fresh connection when its
payload serializes and none otherwise; every send delegates to a freshly
created connection; and changing `max_connections` or
`max_connection_attempts` changes nothing about a send.  The same holds for
the certificate pool. -/
theorem apns_c10 (pool : APNsKeyConnectionPool) (cp : APNsCertConnectionPool)
    (calls : List (Int × NotificationRequest)) (req : NotificationRequest) (t : Int)
    (mc2 : Nat) (mca2 : Option Nat) (kfc kid team tp : String) (mc : Nat)
    (mca : Option Nat) (sb : Bool) :
    keyPoolSendMany pool calls = calls.map (fun c => pool.send_notification c.2 c.1)
    ∧ (APNsKeyConnectionPool.init kfc kid team tp mc mca sb).base.connections = []
    ∧ ((pool.send_notification req t).2.1.requests = []
        ∧ (pool.send_notification req t).2.1.request_streams = []
        ∧ (pool.send_notification req t).2.1.request_statuses = [])
    ∧ countConnCreated (pool.send_notification req t).2.2
      = (if serializable req.message then 1 else 0)
    ∧ pool.send_notification req t = (pool.create_connection).send_notification req t
    ∧ ({ pool with
          base :=
            { pool.base with
              max_connections := mc2
              max_connection_attempts := mca2 } }).send_notification req t
      = pool.send_notification req t
    ∧ countConnCreated (cp.send_notification req t).2.2
      = (if serializable req.message then 1 else 0)
    ∧ ((cp.send_notification req t).2.1.requests = []
        ∧ (cp.send_notification req t).2.1.request_streams = []
        ∧ (cp.send_notification req t).2.1.request_statuses = []) := by
  refine ⟨?_, rfl, ?_, ?_, rfl, rfl, ?_, ?_⟩
  · induction calls with
    | nil => rfl
    | cons c cs ih => simp [keyPoolSendMany, ih]
  · refine ⟨?_, ?_, ?_⟩ <;>
      (cases h : dumpsOpt req.message <;>
        simp [APNsKeyConnectionPool.send_notification, APNsBaseClientProtocol.send_notification,
          APNsBaseClientProtocol.buildHeaders, APNsKeyConnectionPool.create_connection,
          APNsBaseClientProtocol.init, h])
  · by_cases hs : serializable req.message = true
    · simp [APNsKeyConnectionPool.send_notification, APNsBaseClientProtocol.send_notification,
        dumpsOpt, hs, countConnCreated]
    · simp only [Bool.not_eq_true] at hs
      simp [APNsKeyConnectionPool.send_notification, APNsBaseClientProtocol.send_notification,
        dumpsOpt, hs, countConnCreated]
  · by_cases hs : serializable req.message = true
    · simp [APNsCertConnectionPool.send_notification, APNsBaseClientProtocol.send_notification,
        dumpsOpt, hs, countConnCreated]
    · simp only [Bool.not_eq_true] at hs
      simp [APNsCertConnectionPool.send_notification, APNsBaseClientProtocol.send_notification,
        dumpsOpt, hs, countConnCreated]
  · refine ⟨?_, ?_, ?_⟩ <;>
      (cases h : dumpsOpt req.message <;>
        simp [APNsCertConnectionPool.send_notification, APNsBaseClientProtocol.send_notification,
          APNsBaseClientProtocol.buildHeaders, APNsCertConnectionPool.create_connection,
          APNsBaseClientProtocol.init, h])

end Aioapns
